import Mathlib

/-!
Verification development for the agent-framework repository.

Strings of the Python source are modelled as `List Char` (Python `str` is a
sequence of code points, as is a Lean `Char` list).  Dictionaries are
association lists in insertion order.  External library calls are modelled
as parameters: `json.loads` becomes an abstract parameter `jloads` returning
`none` exactly on malformed documents, and wall-clock time becomes boolean
oracles deciding whether each elapsed-time check fires.  The model client is
a script `Nat → MResponse` giving the response of the n-th model call.

Source files embedded: agent_framework/tools.py, agent_framework/base.py,
agent_framework/agent.py, agent_framework/sub_agent.py.
-/

/-- Python `s.startswith(p)` on code-point lists. -/
def startsWithSub : List Char → List Char → Bool
  | _, [] => true
  | [], _ :: _ => false
  | a :: s, b :: p => a = b && startsWithSub s p

/-- Python `p in s` (substring containment). -/
def containsSub (s pat : List Char) : Bool :=
  if startsWithSub s pat then true
  else
    match s with
    | [] => false
    | _ :: t => containsSub t pat

/-- Recursion of `replaceAll`, driven by a fuel that bounds the scan length
(each step consumes at least one character, so `l.length` fuel always
suffices and the fuel-exhaustion branch is unreachable from `replaceAll`). -/
def replaceAllGo (pat repl : List Char) : Nat → List Char → List Char
  | 0, l => l
  | f + 1, l =>
    match l with
    | [] => []
    | c :: rest =>
      if pat ≠ [] ∧ startsWithSub (c :: rest) pat = true then
        repl ++ replaceAllGo pat repl f (rest.drop (pat.length - 1))
      else
        c :: replaceAllGo pat repl f rest

/-- Python `s.replace(pat, repl)`: replace every occurrence, scanning left to
right and skipping past each replacement (Python semantics for a nonempty
pattern; all call sites in the source use nonempty patterns). -/
def replaceAll (l pat repl : List Char) : List Char :=
  replaceAllGo pat repl l.length l

/-- Python `s[-k:]` for `k > 0`: the last `min k (length s)` elements. -/
def pyTailTake (s : List Char) (k : Nat) : List Char :=
  s.drop (s.length - k)

/-- Python `s[:i]` for an `int` index `i` (possibly negative). -/
def pyHeadSlice (s : List Char) (i : Int) : List Char :=
  if 0 ≤ i then s.take i.toNat else s.take ((s.length : Int) + i).toNat

/-- Python `s[-k:]` as used by `_prune_messages` (`k = 0` yields the whole
list, because `-0 == 0` in Python). -/
def pyTailSlice {α : Type} (k : Nat) (s : List α) : List α :=
  if k = 0 then s else s.drop (s.length - k)

/-- Python `int(x)` on a rational value: truncation toward zero. -/
def pyInt (q : ℚ) : Int :=
  if 0 ≤ q then q.floor else -((-q).floor)

/-- Decimal digit character for `d < 10`. -/
def digitCh (d : Nat) : Char := Char.ofNat (48 + d)

/-- Fuel-driven decimal rendering helper (structural, kernel-reducible). -/
def natReprAux : Nat → Nat → List Char
  | 0, _ => []
  | _ + 1, 0 => []
  | f + 1, n + 1 => natReprAux f ((n + 1) / 10) ++ [digitCh ((n + 1) % 10)]

/-- Python `str(n)` for a nonnegative integer: decimal, no leading zeros. -/
def natRepr (n : Nat) : List Char :=
  if n = 0 then [digitCh 0] else natReprAux (n + 1) n

/-- Numeric value of a decimal digit string (Python `int(ds)`). -/
def digitsVal (ds : List Char) : Nat :=
  ds.foldl (fun a c => a * 10 + (c.toNat - 48)) 0

/-! ## Truncation policy (tools.py, `truncate_tool_result`) -/

/-- tools.py `TOOL_RESULT_HARD_LIMIT = 10 * 1024`. -/
def TOOL_RESULT_HARD_LIMIT : Nat := 10 * 1024

/-- tools.py head-retention fraction constant (value 0.5, exact in binary
floating point, hence faithfully a rational here). -/
def TOOL_RESULT_HEAD_FRAC : ℚ := 1 / 2

/-- tools.py tail-retention fraction constant (value 0.5). -/
def TOOL_RESULT_TAIL_FRAC : ℚ := 1 / 2

/-- The truncation marker `"\n[... 内容被截断 ({n} 字符) ...]\n"` built for an
original length `n`. -/
def markerFor (n : Nat) : List Char :=
  ("\n[... 内容被截断 (").data ++ natRepr n ++ (" 字符) ...]\n").data

/-- tools.py `truncate_tool_result(result, context_window, head_ratio,
tail_ratio, hard_limit)`.  The two fraction parameters are the source's ratio
arguments; every call site in the repository passes the 0.5 defaults, at
which Python's float arithmetic is exact. -/
def truncate_tool_result (result : List Char) (context_window : Option Nat)
    (headFrac tailFrac : ℚ) (hard_limit : Nat) : List Char :=
  if result = [] then result
  else
    let context_limit : Nat :=
      match context_window with
      | none => hard_limit
      | some cw => (pyInt ((cw : ℚ) * (3 / 10))).toNat
    let max_length := min hard_limit context_limit
    if result.length ≤ max_length then result
    else
      let head_length0 : Int := pyInt ((max_length : ℚ) * headFrac)
      let tail_length0 : Int := pyInt ((max_length : ℚ) * tailFrac)
      let marker := markerFor result.length
      let marker_length : Nat := marker.length
      let available : Int := (max_length : Int) - (marker_length : Int)
      let head_length : Int :=
        if head_length0 + tail_length0 + (marker_length : Int) > (max_length : Int) then
          pyInt ((available : ℚ) * headFrac)
        else head_length0
      let tail_length : Int :=
        if head_length0 + tail_length0 + (marker_length : Int) > (max_length : Int) then
          available - head_length
        else tail_length0
      let head := pyHeadSlice result head_length
      let tail := if 0 < tail_length then pyTailTake result tail_length.toNat else []
      head ++ marker ++ tail

/-- `truncate_tool_result` at the source defaults (`context_window=None`,
ratios 0.5/0.5, `hard_limit = TOOL_RESULT_HARD_LIMIT`), as used by both
`ToolRegistry.execute` and `ToolRegistry.execute_async`. -/
def truncateDefault (result : List Char) : List Char :=
  truncate_tool_result result none TOOL_RESULT_HEAD_FRAC TOOL_RESULT_TAIL_FRAC
    TOOL_RESULT_HARD_LIMIT

/-! ## Data model -/

/-- A normalized tool call `{id, type, function: {name, arguments}}`; the
source duck-types structured objects and raw dicts apart but extracts exactly
these fields on every path (`_parse_tool_call`, agent.py lines 190-200). -/
structure SToolCall where
  id : List Char
  type : List Char
  name : List Char
  arguments : List Char
deriving DecidableEq

/-- model_client.py `StopReason`. -/
inductive MRStop
  | stop
  | tool_use
  | length
  | error
deriving DecidableEq

/-- model_client.py `ModelResponse` as consumed by the loops: `tool_calls`
of `None` is collapsed to `[]` exactly as `response.tool_calls or []` does. -/
structure MResponse where
  content : List Char
  tool_calls : List SToolCall
  stop_reason : MRStop

/-- A history message dict.  A missing `tool_calls` key is the empty list
(the source only adds the key for a nonempty list) and a missing
`tool_call_id` key is `none`. -/
structure PMessage where
  role : List Char
  content : List Char
  tool_calls : List SToolCall := []
  tool_call_id : Option (List Char) := none
deriving DecidableEq

/-- Python values appearing in parsed tool arguments. -/
inductive PyVal
  | str (s : List Char)
  | intV (n : Int)
  | msgs (l : List PMessage)
deriving DecidableEq

/-- A parsed JSON-object argument dict, in insertion order. -/
abbrev PyDict : Type := List (List Char × PyVal)

/-- Dict lookup (`d.get(k)`). -/
def dictGet (d : PyDict) (k : List Char) : Option PyVal :=
  match d with
  | [] => none
  | (k0, v) :: rest => if k0 = k then some v else dictGet rest k

/-- `d.get(k, default)` restricted to string values, as the source uses for
`task`. -/
def dictGetStr (d : PyDict) (k : List Char) (dflt : List Char) : List Char :=
  match dictGet d k with
  | some (PyVal.str s) => s
  | _ => dflt

/-- `d.get(k, [])` restricted to message-list values, as the source uses for
`context`. -/
def dictGetMsgs (d : PyDict) (k : List Char) : List PMessage :=
  match dictGet d k with
  | some (PyVal.msgs l) => l
  | _ => []

/-- `kwargs.pop(k, default)`: the value (if the key is present) and the dict
with the key removed. -/
def dictPop (d : PyDict) (k : List Char) : Option PyVal × PyDict :=
  match d with
  | [] => (none, [])
  | (k0, v) :: rest =>
    if k0 = k then (some v, rest)
    else
      let (r, rest') := dictPop rest k
      (r, (k0, v) :: rest')

/-- A tool-result record (`{tool_use_id, tool_name, output, success}`);
`duration` and `session_id` carry wall-clock/uuid data outside the model. -/
structure PToolResult where
  tool_use_id : List Char
  tool_name : List Char
  output : List Char
  success : Bool
deriving DecidableEq

/-- Observable behaviour of one underlying tool `execute(**kwargs)` run:
it returns a string, raises an exception with a message, or exceeds its
timeout inside the bounded worker. -/
inductive ToolBehavior
  | ok (out : List Char)
  | raises (msg : List Char)
  | timesOut

/-- A registered tool: its declared default timeout (seconds) and its
execution behaviour as a function of the (timeout-popped) arguments. -/
structure PTool where
  description : List Char
  timeout : Nat
  behavior : PyDict → ToolBehavior

/-- tools.py `ToolRegistry`: the name-keyed tool dict. -/
structure ToolRegistryM where
  tools : List (List Char × PTool)

/-- Lookup in the registry dict (`ToolRegistry.get`). -/
def registryGet (reg : ToolRegistryM) (name : List Char) : Option PTool :=
  match reg.tools.find? (fun p => p.1 = name) with
  | some p => some p.2
  | none => none

/-- Render the timeout value used in the timeout error message: the popped
`timeout` kwarg when present (an int), else the tool's declared default. -/
def timeoutRepr (popped : Option PyVal) (dflt : Nat) : List Char :=
  match popped with
  | some (PyVal.intV n) => if 0 ≤ n then natRepr n.toNat else ("-").data ++ natRepr (-n).toNat
  | _ => natRepr dflt

/-- tools.py `ToolRegistry.execute(name, **kwargs)`: unknown names yield
`"Error: Unknown tool: <name>"`; a `timeout` kwarg is popped before the tool
runs; a raising tool is caught into `"Error: Tool execution failed: <e>"`;
a timeout yields `"Error: Tool timed out after <t>s"`; a successful result
is truncated.  The second component is the registry afterwards (the method
never mutates `_tools`). -/
def registryExecute (reg : ToolRegistryM) (name : List Char) (kwargs : PyDict) :
    List Char × ToolRegistryM :=
  match registryGet reg name with
  | none => (("Error: Unknown tool: ").data ++ name, reg)
  | some tool =>
    let (poppedTimeout, kwargs') := dictPop kwargs (("timeout").data)
    match tool.behavior kwargs' with
    | ToolBehavior.ok out => (truncateDefault out, reg)
    | ToolBehavior.raises msg => (("Error: Tool execution failed: ").data ++ msg, reg)
    | ToolBehavior.timesOut =>
        (("Error: Tool timed out after ").data ++ timeoutRepr poppedTimeout tool.timeout
          ++ ("s").data, reg)

/-- tools.py module-level `execute_tool(name, **kwargs)`: delegates to the
registry's `execute`. -/
def execute_tool (reg : ToolRegistryM) (name : List Char) (kwargs : PyDict) : List Char :=
  (registryExecute reg name kwargs).1

/-! ## Placeholder resolution (base.py) -/

/-- Left-to-right first-match scan: try the matcher at every suffix, as
`re.search` does. -/
def scanFirst {α : Type} (f : List Char → Option α) : List Char → Option α
  | [] => none
  | c :: rest =>
    match f (c :: rest) with
    | some r => some r
    | none => scanFirst f rest

/-- The literal text `${tool_result.` . -/
def trPre : List Char := ("$\x7btool_result.").data

/-- The literal text `${tool_result.last}` . -/
def lastP : List Char := ("$\x7btool_result.last\x7d").data

/-- The literal text `${memory.` . -/
def memPre : List Char := ("$\x7bmemory.").data

/-- The literal text `${natural.` . -/
def natPre : List Char := ("$\x7bnatural.").data

/-- The closing-brace character. -/
def rbr : Char := '\x7d'

/-- Match `\$\{tool_result\.(\d+)\}` at the start of `s`, returning the
matched text (regex group 0) and the parsed index (group 1 through `int`). -/
def matchTRAt (s : List Char) : Option (List Char × Nat) :=
  if startsWithSub s trPre then
    let rest := s.drop trPre.length
    let ds := rest.takeWhile (fun c => c.isDigit)
    if ds ≠ [] ∧ (rest.drop ds.length).head? = some rbr then
      some (trPre ++ ds ++ [rbr], digitsVal ds)
    else none
  else none

/-- `re.search(r'\$\{tool_result\.(\d+)\}', s)`. -/
def findTR (s : List Char) : Option (List Char × Nat) := scanFirst matchTRAt s

/-- Match `pre` + `[^}]+` + `}` at the start of `s`, returning group 0 and
group 1 (used for the `memory` and `natural` patterns). -/
def matchKeyAt (pre : List Char) (s : List Char) : Option (List Char × List Char) :=
  if startsWithSub s pre then
    let rest := s.drop pre.length
    let key := rest.takeWhile (fun c => c ≠ rbr)
    if key ≠ [] ∧ (rest.drop key.length).head? = some rbr then
      some (pre ++ key ++ [rbr], key)
    else none
  else none

/-- `re.search(r'\$\{memory\.([^}]+)\}', s)`. -/
def findMem (s : List Char) : Option (List Char × List Char) :=
  scanFirst (matchKeyAt memPre) s

/-- `re.search(r'\$\{natural\.([^}]+)\}', s)`. -/
def findNat (s : List Char) : Option (List Char × List Char) :=
  scanFirst (matchKeyAt natPre) s

/-- Python whitespace for `str.strip()`. -/
def isWsCh (c : Char) : Bool :=
  c = ' ' ∨ c = '\n' ∨ c = '\t' ∨ c = '\r' ∨ c = '\x0b' ∨ c = '\x0c'

/-- Python `s.strip()`. -/
def stripWs (l : List Char) : List Char :=
  ((l.dropWhile isWsCh).reverse.dropWhile isWsCh).reverse

/-- Python `s.split(sep)` for a single separator character. -/
def splitOnCh (sep : Char) (l : List Char) : List (List Char) :=
  match l with
  | [] => [[]]
  | c :: rest =>
    match splitOnCh sep rest with
    | [] => [[]]
    | h :: t => if c = sep then [] :: h :: t else (c :: h) :: t

/-- Python `line.split(":")[0]`. -/
def takeToColon (l : List Char) : List Char := l.takeWhile (fun c => c ≠ ':')

/-- Python `s.lower()` (ASCII case folding suffices for this code base). -/
def toLowerL (l : List Char) : List Char := l.map Char.toLower

/-- The literal `"上一次"` marker word checked by the natural-language lookup. -/
def shangMark : List Char := ("上一次").data

/-- The colon-prefix extraction of one matched multi-line output in
`_find_tool_result_by_description`. -/
def pathLines (output : List Char) : List (List Char) :=
  ((splitOnCh '\n' (stripWs output)).filter
    (fun line => containsSub line [':'] ∧ takeToColon line ≠ [] ∧
      ¬ startsWithSub (takeToColon line) (("Error").data))).map takeToColon

/-- The reverse scan of `_find_tool_result_by_description` (base.py lines
165-186) over the already-reversed result history. -/
def ftrbdGo (description descLower : List Char) : List PToolResult → Option (List Char)
  | [] => none
  | r :: rest =>
    if containsSub descLower (toLowerL r.tool_name) ∨ containsSub description shangMark then
      let output := r.output
      if containsSub output ['\n'] then
        let paths := pathLines output
        if paths ≠ [] then some (List.intercalate ['\n'] (paths.take 5))
        else some output
      else some output
    else ftrbdGo description descLower rest

/-- base.py `BaseAgent._find_tool_result_by_description`. -/
def find_tool_result_by_description (description : List Char)
    (toolResults : List PToolResult) : Option (List Char) :=
  if toolResults = [] then none
  else ftrbdGo description (toLowerL description) toolResults.reverse

/-- A memory store's data dict (`MemoryStore._data`). -/
abbrev MemStore : Type := List (List Char × List Char)

/-- `MemoryStore.get`. -/
def memGet (store : MemStore) (k : List Char) : Option (List Char) :=
  match store with
  | [] => none
  | (k0, v) :: rest => if k0 = k then some v else memGet rest k

/-- Step `# 1. ${tool_result.N}` of `_resolve_placeholders` (base.py lines
197-202). -/
def resolveStep1 (v : List Char) (toolResults : List PToolResult) : List Char :=
  match findTR v with
  | some (matched, idx) =>
    if idx < toolResults.length then
      replaceAll v matched ((toolResults.getD idx ⟨[], [], [], false⟩).output)
    else v
  | none => v

/-- Step `# 2. ${tool_result.last}` of `_resolve_placeholders` (base.py
lines 204-206). -/
def resolveStep2 (v : List Char) (toolResults : List PToolResult) : List Char :=
  if containsSub v lastP ∧ toolResults ≠ [] then
    replaceAll v lastP ((toolResults.getLastD ⟨[], [], [], false⟩).output)
  else v

/-- Step `# 3. ${memory.KEY}` of `_resolve_placeholders` (base.py lines
208-215). -/
def resolveStep3 (v : List Char) (mem : Option MemStore) : List Char :=
  match mem with
  | some store =>
    match findMem v with
    | some (matched, key) =>
      match memGet store key with
      | some mv => replaceAll v matched mv
      | none => v
    | none => v
  | none => v

/-- Step `# 4. ${natural.QUERY}` of `_resolve_placeholders` (base.py lines
217-223). -/
def resolveStep4 (v : List Char) (toolResults : List PToolResult) : List Char :=
  match findNat v with
  | some (matched, query) =>
    match find_tool_result_by_description query toolResults with
    | some rv => replaceAll v matched rv
    | none => v
  | none => v

/-- The four-step rewriting of one string argument value in
`BaseAgent._resolve_placeholders` (base.py lines 188-227), applied in the
source's order. -/
def resolveValue (v0 : List Char) (toolResults : List PToolResult)
    (mem : Option MemStore) : List Char :=
  resolveStep4 (resolveStep3 (resolveStep2 (resolveStep1 v0 toolResults) toolResults) mem)
    toolResults

/-- base.py `BaseAgent._resolve_placeholders(args, memory_store)`:
non-string values pass through unchanged. -/
def resolve_placeholders (args : PyDict) (toolResults : List PToolResult)
    (mem : Option MemStore) : PyDict :=
  args.map fun kv =>
    match kv.2 with
    | PyVal.str s => (kv.1, PyVal.str (resolveValue s toolResults mem))
    | other => (kv.1, other)

/-! ## History pruning -/

/-- The `"system"` role string. -/
def sysRole : List Char := ("system").data

/-- agent.py `Agent._prune_messages` and base.py `BaseAgent._prune_messages`
(identical logic): keep the first message when it is a `system` message,
plus Python's `messages[-max_msgs:]` tail window. -/
def prune_messages (messages : List PMessage) (max_msgs : Nat) : List PMessage :=
  if messages.length ≤ max_msgs then messages
  else
    let recent := pyTailSlice max_msgs messages
    match messages.head? with
    | some m => if m.role = sysRole then m :: recent else recent
    | none => recent

/-! ## Tool dispatch in the agent and sub-agent loops -/

/-- The exception raised by an unguarded `json.loads` on a malformed
document. -/
inductive PyExc
  | jsonDecodeError (doc : List Char)
deriving DecidableEq

/-- Abstract `json.loads` restricted to JSON objects: `none` exactly on the
documents it would reject with `JSONDecodeError`. -/
def JLoads : Type := List Char → Option PyDict

/-- The `"Error:"` marker tested by `not output.startswith("Error:")`. -/
def errPre : List Char := ("Error:").data

/-- base.py `BaseAgent._parse_tool_args`: tolerant parse, wrapping malformed
JSON as `{"raw": <original text>}`. -/
def parse_tool_args (jloads : JLoads) (args_str : List Char) : PyDict :=
  if args_str = [] then []
  else
    match jloads args_str with
    | some d => d
    | none => [(("raw").data, PyVal.str args_str)]

/-- Recursion of agent.py `Agent._execute_tools`: `args = json.loads(args_str)
if args_str else {}` is *not* inside the try block, so a malformed document
propagates `JSONDecodeError` out of the method; the try block around
`execute_tool` only guards the (internally catching) registry call. -/
def execute_tools_go (jloads : JLoads) (reg : ToolRegistryM) :
    List SToolCall → List PToolResult → Except PyExc (List PToolResult)
  | [], acc => Except.ok acc
  | tc :: rest, acc =>
    let argsE : Except PyExc PyDict :=
      if tc.arguments = [] then Except.ok []
      else
        match jloads tc.arguments with
        | some d => Except.ok d
        | none => Except.error (PyExc.jsonDecodeError tc.arguments)
    match argsE with
    | Except.error e => Except.error e
    | Except.ok args =>
      let output := execute_tool reg tc.name args
      execute_tools_go jloads reg rest
        (acc ++ [⟨tc.id, tc.name, output, ¬ startsWithSub output errPre⟩])

/-- agent.py `Agent._execute_tools`. -/
def execute_tools (jloads : JLoads) (reg : ToolRegistryM) (calls : List SToolCall) :
    Except PyExc (List PToolResult) :=
  execute_tools_go jloads reg calls []

/-- sub_agent.py `SubAgent._execute_subagent_tools`: parses arguments
tolerantly via `_parse_tool_args` and passes them directly to `execute_tool`
(no placeholder resolution happens on this path); the produced result records
are appended to `self._tool_results` as well as returned. -/
def execute_subagent_tools (jloads : JLoads) (reg : ToolRegistryM) :
    List SToolCall → List PToolResult
  | [] => []
  | tc :: rest =>
    let args := parse_tool_args jloads tc.arguments
    let output := execute_tool reg tc.name args
    ⟨tc.id, tc.name, output, ¬ startsWithSub output errPre⟩ ::
      execute_subagent_tools jloads reg rest

/-! ## Sub-agent runtime (sub_agent.py) -/

/-- sub_agent.py `SubAgentConfig`. -/
structure SubAgentConfig where
  name : List Char
  description : List Char
  system_prompt : List Char
  allowed_tools : List (List Char)
  max_iterations : Nat
  timeout : Nat
  capability_sections : List (List Char × List (List Char))

/-- base.py `BaseAgent.DEFAULT_CAPABILITIES`. -/
def DEFAULT_CAPABILITIES : List (List Char × List (List Char)) :=
  [(("Core Capabilities").data,
    [("- **Search & Research**: Use search tools to find information").data,
     ("- **Summarize & Synthesize**: Combine multiple results").data,
     ("- **File Operations**: Read, write, and edit files as needed").data,
     ("- **Shell Commands**: Execute bash commands when required").data]),
   (("Tool Result Reference & Variable Substitution").data,
    [("- **Natural Language**: Describe what you need (e.g., 'path from last grep')").data,
     ("- **Direct Reference**: Use `$\x7btool_result.N\x7d` (0-indexed)").data,
     ("- **Last Result**: Use `$\x7btool_result.last\x7d`").data,
     ("- **Memory Storage**: Use `memory` tool and `$\x7bmemory.KEY\x7d`").data]),
   (("Response Guidelines").data,
    [("- Search first before answering").data,
     ("- Synthesize multiple sources").data,
     ("- Use tools immediately when task matches").data,
     ("- Prefer concrete actions over lengthy explanations").data])]

/-- `"\n".join(parts)`. -/
def joinNl (parts : List (List Char)) : List Char := List.intercalate ['\n'] parts

/-- base.py `BaseAgent._build_system_prompt_base`. -/
def build_system_prompt_base (workspace name description skills_desc tools_desc : List Char)
    (custom_sections : List (List Char × List (List Char))) : List Char :=
  let parts := [("You are ").data ++ name ++ (", ").data ++ description,
                ("Working directory: ").data ++ workspace]
  let parts := if skills_desc ≠ [] then
      parts ++ [("\n**Skills:**\n").data ++ skills_desc] else parts
  let parts := if tools_desc ≠ [] then
      parts ++ [("\n**Available Tools:**\n").data ++ tools_desc] else parts
  let sections := if custom_sections ≠ [] then custom_sections else DEFAULT_CAPABILITIES
  let parts := parts ++ sections.flatMap
      (fun sec => (("\n**").data ++ sec.1 ++ (":**").data) :: sec.2)
  joinNl parts

/-- sub_agent.py `SubAgent._get_allowed_tools`: the wildcard token grants all
registered tool names. -/
def get_allowed_tools (reg : ToolRegistryM) (cfg : SubAgentConfig) : List (List Char) :=
  if ("*").data ∈ cfg.allowed_tools then reg.tools.map (fun p => p.1)
  else cfg.allowed_tools

/-- sub_agent.py `SubAgent._get_tools_description`. -/
def get_tools_description (reg : ToolRegistryM) (cfg : SubAgentConfig) : List Char :=
  let tools := get_allowed_tools reg cfg
  if tools = [] then []
  else
    joinNl (((reg.tools.filter (fun p => p.1 ∈ tools)).map
      (fun p => ("- ").data ++ p.1 ++ (": ").data ++ p.2.description)))

/-- sub_agent.py `SubAgent._build_system_prompt`. -/
def sub_build_system_prompt (workspace : List Char) (reg : ToolRegistryM)
    (cfg : SubAgentConfig) : List Char :=
  build_system_prompt_base workspace cfg.name cfg.description []
    (get_tools_description reg cfg) cfg.capability_sections

/-- The result dict of `SubAgent.execute` (`duration` is wall-clock data
outside the model; `summary`/`tool_calls` read as `""`/`0` when the dict
lacks them, matching every read site). -/
structure SubExecResult where
  success : Bool
  summary : List Char
  tool_calls : Nat
  error : Option (List Char)
deriving DecidableEq

/-- Environment of one nested sub-agent run: its model-response script and
the oracle saying whether the `timeout` wall-clock check fires after a given
iteration. -/
structure SubEnv where
  script : Nat → MResponse
  timeOutAt : Nat → Bool

/-- base.py `BaseAgent._should_stop`. -/
def should_stop (resp : MResponse) (stream : Bool) (tool_calls : List SToolCall) : Bool :=
  if stream then tool_calls = [] else resp.stop_reason = MRStop.stop

/-- The post-loop fix-up of `SubAgent.execute`: an unsuccessful run without
an explicit error reports `"Max iterations reached"`; `tool_calls` is set
from the stats counter. -/
def subFinalize (success : Bool) (summary : List Char) (error : Option (List Char))
    (stats : Nat) : SubExecResult :=
  ⟨success, summary, stats,
    if ¬ success ∧ error = none then some (("Max iterations reached").data) else error⟩

/-- The iteration recursion of sub_agent.py `SubAgent.execute` (lines
128-168): prune to 50 messages, call the model, dispatch tools (the
assistant and tool messages are only appended when tool calls are present),
then test `_should_stop` and the timeout budget. -/
def subagent_execute_go (jloads : JLoads) (reg : ToolRegistryM) (env : SubEnv)
    (stream : Bool) : Nat → Nat → List PMessage → Nat → SubExecResult
  | 0, _, _, stats => subFinalize false [] none stats
  | fuel + 1, iter, messages, stats =>
    let messages := prune_messages messages 50
    let resp := env.script iter
    let content := resp.content
    let tcs := resp.tool_calls
    let tool_results := if tcs ≠ [] then execute_subagent_tools jloads reg tcs else []
    let messages :=
      if tcs ≠ [] then
        messages ++ [{role := ("assistant").data, content := content, tool_calls := tcs}]
          ++ tool_results.map
            (fun r => {role := ("tool").data, content := r.output,
                       tool_call_id := some r.tool_use_id})
      else messages
    let stats := stats + tool_results.length
    if should_stop resp stream tcs then subFinalize true content none stats
    else if env.timeOutAt (iter + 1) then subFinalize false [] (some (("Timeout").data)) stats
    else subagent_execute_go jloads reg env stream fuel (iter + 1) messages stats

/-- sub_agent.py `SubAgent.execute(task, context, stream)`. -/
def subagent_execute (jloads : JLoads) (reg : ToolRegistryM) (workspace : List Char)
    (cfg : SubAgentConfig) (env : SubEnv) (stream : Bool) (task : List Char)
    (context : List PMessage) : SubExecResult :=
  let messages0 :=
    [{role := sysRole, content := sub_build_system_prompt workspace reg cfg}]
      ++ context ++ [{role := ("user").data, content := task}]
  subagent_execute_go jloads reg env stream cfg.max_iterations 0 messages0 0

/-- The registered-configuration dict of `SubAgentManager`. -/
def cfgLookup (configs : List (List Char × SubAgentConfig)) (name : List Char) :
    Option SubAgentConfig :=
  match configs with
  | [] => none
  | (k, c) :: rest => if k = name then some c else cfgLookup rest name

/-- The configuration built by `SubAgentManager.create_subagent("default",
description="Default subagent")` on the fallback path of
`execute_task_async`. -/
def default_subagent_config : SubAgentConfig :=
  ⟨("default").data, ("Default subagent").data, [], [], 50, 300, []⟩

/-- sub_agent.py `SubAgentManager.execute_task_async`: a registered name
runs that configuration; any other case — including an unknown name — falls
back to a fresh `"default"` sub-agent (Python truthiness: an empty name also
falls back). -/
def execute_task_async (jloads : JLoads) (reg : ToolRegistryM) (workspace : List Char)
    (configs : List (List Char × SubAgentConfig)) (agent_name : Option (List Char))
    (env : SubEnv) (task : List Char) (context : List PMessage) (stream : Bool) :
    SubExecResult :=
  let registered : Bool :=
    match agent_name with
    | some n => decide (n ≠ []) && (cfgLookup configs n).isSome
    | none => false
  if registered then
    match agent_name with
    | some n =>
      match cfgLookup configs n with
      | some cfg => subagent_execute jloads reg workspace cfg env stream task context
      | none => subagent_execute jloads reg workspace default_subagent_config env stream task context
    | none => subagent_execute jloads reg workspace default_subagent_config env stream task context
  else subagent_execute jloads reg workspace default_subagent_config env stream task context

/-! ## Main agent orchestration loop (agent.py) -/

/-- The `subagent_` name marker. -/
def subagentPre : List Char := ("subagent_").data

/-- agent.py `Agent._is_subagent_call`. -/
def is_subagent_call (tc : SToolCall) : Bool := startsWithSub tc.name subagentPre

/-- The record returned by `Agent._execute_subagent`. -/
structure SubagentCallResult where
  tool_use_id : List Char
  subagent_name : List Char
  result : SubExecResult
deriving DecidableEq

/-- agent.py `Agent._execute_subagent`: tolerant argument parse, name
stripping via `tool_name.replace("subagent_", "")`, then a config lookup —
a registered name delegates through `execute_task_async`, an unknown name
yields the failure dict `{"success": False, "error": "Unknown subagent:
<name>"}` without raising. -/
def execute_subagent (jloads : JLoads) (reg : ToolRegistryM) (workspace : List Char)
    (configs : List (List Char × SubAgentConfig)) (env : SubEnv) (tc : SToolCall) :
    SubagentCallResult :=
  let args : PyDict :=
    if tc.arguments = [] then []
    else
      match jloads tc.arguments with
      | some d => d
      | none => [(("raw").data, PyVal.str tc.arguments)]
  let subagent_name := replaceAll tc.name subagentPre []
  let task := dictGetStr args (("task").data) []
  let context := dictGetMsgs args (("context").data)
  match cfgLookup configs subagent_name with
  | some _ =>
    ⟨tc.id, subagent_name,
      execute_task_async jloads reg workspace configs (some subagent_name) env task context false⟩
  | none =>
    ⟨tc.id, subagent_name, ⟨false, [], 0, some (("Unknown subagent: ").data ++ subagent_name)⟩⟩

/-- The result dict of `Agent._run_agent_loop`.  The loop initializes
`{"success": False, "content": "", "tool_calls": [], ...}`; `error` mirrors
`result.get("error")`, which no statement of the method ever sets. -/
structure LoopResult where
  success : Bool
  content : List Char
  tool_calls : List (List Char)
  subagent_results : List SubagentCallResult
  iterations : Nat
  error : Option (List Char)
deriving DecidableEq

/-- The initial loop result dict. -/
def initLoopResult : LoopResult := ⟨false, [], [], [], 0, none⟩

/-- Environment of one top-level loop run: the model script, the two
elapsed-budget oracles (`time.time() - start_time > max_iterations * 10`
tested after tool dispatch and at the end of an iteration), and the nested
environment handed to the k-th delegation overall. -/
structure AgentEnv where
  script : Nat → MResponse
  timeOutTools : Nat → Bool
  timeOutLoop : Nat → Bool
  subEnvAt : Nat → SubEnv

/-- Outcome of one parent-loop iteration body: an uncaught exception, a
`break` carrying the final result, or the state for the next iteration. -/
inductive StepRes
  | raise (e : PyExc)
  | halt (r : LoopResult)
  | next (messages : List PMessage) (result : LoopResult) (delegs : Nat)

/-- The sequential sub-agent dispatch of one iteration (agent.py lines
210-221): each delegation appends its `tool` message immediately. -/
def processSubs (jloads : JLoads) (reg : ToolRegistryM) (workspace : List Char)
    (configs : List (List Char × SubAgentConfig)) (env : AgentEnv) :
    List SToolCall → Nat → List PMessage → LoopResult →
    List PMessage × LoopResult × Nat
  | [], delegs, messages, result => (messages, result, delegs)
  | tc :: rest, delegs, messages, result =>
    let sr := execute_subagent jloads reg workspace configs (env.subEnvAt delegs) tc
    let result := {result with subagent_results := result.subagent_results ++ [sr]}
    let messages := messages ++
      [{role := ("tool").data,
        content := ("[").data ++ sr.subagent_name ++ ("] ").data ++ sr.result.summary,
        tool_call_id := some sr.tool_use_id}]
    processSubs jloads reg workspace configs env rest (delegs + 1) messages result

/-- One iteration body of agent.py `Agent._run_agent_loop` (lines 154-244),
entered with `iter` = the incremented iteration counter: prune, read the
model response, append the assistant message, then either dispatch (sub-agent
calls first, ordinary calls afterwards) and continue, or evaluate the stop
condition. -/
def loop_step (jloads : JLoads) (reg : ToolRegistryM) (workspace : List Char)
    (configs : List (List Char × SubAgentConfig)) (env : AgentEnv) (stream : Bool)
    (max_messages : Nat) (iter delegs : Nat) (messages : List PMessage)
    (result : LoopResult) : StepRes :=
  let messages := prune_messages messages max_messages
  let resp := env.script (iter - 1)
  let content := resp.content
  let tcs := resp.tool_calls
  let messages := messages ++ [{role := ("assistant").data, content := content, tool_calls := tcs}]
  let result := {result with content := content}
  if tcs ≠ [] then
    let subCalls := tcs.filter is_subagent_call
    let ordCalls := tcs.filter (fun tc => ¬ is_subagent_call tc)
    let st := processSubs jloads reg workspace configs env subCalls delegs messages result
    match (if ordCalls ≠ [] then execute_tools jloads reg ordCalls else Except.ok []) with
    | Except.error e => StepRes.raise e
    | Except.ok trs =>
      let result := {st.2.1 with tool_calls := st.2.1.tool_calls ++ trs.map (fun r => r.tool_name)}
      let messages := st.1 ++ trs.map
        (fun r => {role := ("tool").data, content := r.output, tool_call_id := some r.tool_use_id})
      if env.timeOutTools iter then StepRes.halt {result with iterations := iter}
      else StepRes.next messages result st.2.2
  else
    if ¬ stream ∧ resp.stop_reason = MRStop.stop then
      StepRes.halt {result with success := true, iterations := iter}
    else if stream then
      StepRes.halt {result with success := true, iterations := iter}
    else if env.timeOutLoop iter then StepRes.halt {result with iterations := iter}
    else StepRes.next messages result delegs

/-- The `while iterations < max_iterations` recursion of
`Agent._run_agent_loop`; the fuel is the number of remaining iterations. -/
def loop_go (jloads : JLoads) (reg : ToolRegistryM) (workspace : List Char)
    (configs : List (List Char × SubAgentConfig)) (env : AgentEnv) (stream : Bool)
    (max_messages : Nat) : Nat → Nat → Nat → List PMessage → LoopResult →
    Except PyExc LoopResult
  | 0, iter, _, _, result => Except.ok {result with iterations := iter}
  | fuel + 1, iter, delegs, messages, result =>
    match loop_step jloads reg workspace configs env stream max_messages (iter + 1) delegs
        messages result with
    | StepRes.raise e => Except.error e
    | StepRes.halt r => Except.ok r
    | StepRes.next ms r d => loop_go jloads reg workspace configs env stream max_messages fuel
        (iter + 1) d ms r

/-- agent.py `Agent._run_agent_loop(messages, tools, stream)`: the observable
result (`duration`/`session_id` are wall-clock and uuid data outside the
model).  A `JSONDecodeError` from `_execute_tools` propagates out of the
method, hence the `Except`. -/
def run_agent_loop (jloads : JLoads) (reg : ToolRegistryM) (workspace : List Char)
    (configs : List (List Char × SubAgentConfig)) (env : AgentEnv)
    (messages : List PMessage) (max_iterations max_messages : Nat) (stream : Bool) :
    Except PyExc LoopResult :=
  loop_go jloads reg workspace configs env stream max_messages max_iterations 0 0 messages
    initLoopResult

/-! ## Claim theorems -/

/-- C10: executing a tool name absent from the registry returns the string
`"Error: Unknown tool: <name>"` before any tool code could run (so no
exception can arise), leaves the registry's contents unchanged, and the
module-level `execute_tool` front end agrees. -/
theorem c10_unknown_tool (reg : ToolRegistryM) (name : List Char) (kwargs : PyDict)
    (h : registryGet reg name = none) :
    registryExecute reg name kwargs = ((("Error: Unknown tool: ").data ++ name), reg) ∧
    execute_tool reg name kwargs = ("Error: Unknown tool: ").data ++ name := by
  constructor
  · unfold registryExecute
    rw [h]
  · unfold execute_tool registryExecute
    rw [h]

/-- C10 witness: the empty registry on the name `"ghost"`. -/
theorem c10_unknown_tool_witness :
    registryGet ⟨[]⟩ (("ghost").data) = none ∧
    registryExecute ⟨[]⟩ (("ghost").data) [] =
      ((("Error: Unknown tool: ").data ++ ("ghost").data), ⟨[]⟩) ∧
    execute_tool ⟨[]⟩ (("ghost").data) [] =
      ("Error: Unknown tool: ").data ++ ("ghost").data :=
  ⟨rfl, (c10_unknown_tool ⟨[]⟩ (("ghost").data) [] rfl).1,
    (c10_unknown_tool ⟨[]⟩ (("ghost").data) [] rfl).2⟩

/-- C4 counterexample: a tool call whose arguments text is rejected by the
JSON parser makes the main agent's `_execute_tools` raise `JSONDecodeError`
(the parse on agent.py line 323 is outside the try block), rather than
wrapping the text as `{"raw": ...}` and continuing. -/
theorem c4_counterexample :
    execute_tools (fun _ => none) ⟨[]⟩
        [⟨("1").data, ("function").data, ("echo").data, ("notjson").data⟩] =
      Except.error (PyExc.jsonDecodeError (("notjson").data)) := by
  rfl

/-- C4 as amended: malformed-JSON tolerance holds on the sub-agent dispatch
path — `_parse_tool_args` wraps the text as `{"raw": <original text>}` and
`_execute_subagent_tools` proceeds to execute the named tool on that dict —
but the main agent's `_execute_tools` instead propagates the decode error
for the same call. -/
theorem c4_malformed_json (jloads : JLoads) (reg : ToolRegistryM) (tc : SToolCall)
    (h1 : tc.arguments ≠ []) (h2 : jloads tc.arguments = none) :
    parse_tool_args jloads tc.arguments = [(("raw").data, PyVal.str tc.arguments)] ∧
    execute_subagent_tools jloads reg [tc] =
      [⟨tc.id, tc.name,
        execute_tool reg tc.name [(("raw").data, PyVal.str tc.arguments)],
        ¬ startsWithSub
          (execute_tool reg tc.name [(("raw").data, PyVal.str tc.arguments)]) errPre⟩] ∧
    execute_tools jloads reg [tc] = Except.error (PyExc.jsonDecodeError tc.arguments) := by
  have hp : parse_tool_args jloads tc.arguments = [(("raw").data, PyVal.str tc.arguments)] := by
    unfold parse_tool_args
    rw [if_neg h1, h2]
  refine ⟨hp, ?_, ?_⟩
  · unfold execute_subagent_tools
    rw [hp]
    rfl
  · unfold execute_tools execute_tools_go
    rw [if_neg h1, h2]

/-- C4 witness: a concrete malformed document on the empty registry. -/
theorem c4_malformed_json_witness :
    parse_tool_args (fun _ => none) (("notajson").data) =
      [(("raw").data, PyVal.str (("notajson").data))] ∧
    execute_subagent_tools (fun _ => none) ⟨[]⟩
        [⟨("2").data, ("function").data, ("grep").data, ("notajson").data⟩] =
      [⟨("2").data, ("grep").data,
        execute_tool ⟨[]⟩ (("grep").data) [(("raw").data, PyVal.str (("notajson").data))],
        ¬ startsWithSub
          (execute_tool ⟨[]⟩ (("grep").data)
            [(("raw").data, PyVal.str (("notajson").data))]) errPre⟩] ∧
    execute_tools (fun _ => none) ⟨[]⟩
        [⟨("2").data, ("function").data, ("grep").data, ("notajson").data⟩] =
      Except.error (PyExc.jsonDecodeError (("notajson").data)) :=
  c4_malformed_json (fun _ => none) ⟨[]⟩
    ⟨("2").data, ("function").data, ("grep").data, ("notajson").data⟩
    (by decide) rfl

/-- Helper: sequential sub-agent dispatch never touches the `error` field of
the loop result dict. -/
theorem processSubs_error (jloads : JLoads) (reg : ToolRegistryM) (ws : List Char)
    (configs : List (List Char × SubAgentConfig)) (env : AgentEnv) :
    ∀ (l : List SToolCall) (delegs : Nat) (ms : List PMessage) (res : LoopResult),
      (processSubs jloads reg ws configs env l delegs ms res).2.1.error = res.error := by
  intro l
  induction l with
  | nil => intro delegs ms res; rfl
  | cons tc rest ih =>
    intro delegs ms res
    simp only [processSubs]
    rw [ih]

/-- Helper: one loop iteration never touches the `error` field of the result
dict, whether it breaks or continues. -/
theorem loop_step_error (jloads : JLoads) (reg : ToolRegistryM) (ws : List Char)
    (configs : List (List Char × SubAgentConfig)) (env : AgentEnv) (stream : Bool)
    (maxM iter delegs : Nat) (messages : List PMessage) (result : LoopResult) :
    (∀ r, loop_step jloads reg ws configs env stream maxM iter delegs messages result =
        StepRes.halt r → r.error = result.error) ∧
    (∀ ms r d, loop_step jloads reg ws configs env stream maxM iter delegs messages result =
        StepRes.next ms r d → r.error = result.error) := by
  constructor
  · intro r h
    simp only [loop_step] at h
    split at h
    · split at h
      · exact absurd h (by simp)
      · split at h
        · cases h
          simp [processSubs_error]
        · exact absurd h (by simp)
    · split at h
      · cases h; rfl
      · split at h
        · cases h; rfl
        · split at h
          · cases h; rfl
          · exact absurd h (by simp)
  · intro ms r d h
    simp only [loop_step] at h
    split at h
    · split at h
      · exact absurd h (by simp)
      · split at h
        · exact absurd h (by simp)
        · cases h
          simp [processSubs_error]
    · split at h
      · exact absurd h (by simp)
      · split at h
        · exact absurd h (by simp)
        · split at h
          · exact absurd h (by simp)
          · cases h; rfl

/-- Helper: the loop recursion preserves an `error`-free result dict. -/
theorem loop_go_error (jloads : JLoads) (reg : ToolRegistryM) (ws : List Char)
    (configs : List (List Char × SubAgentConfig)) (env : AgentEnv) (stream : Bool)
    (maxM : Nat) :
    ∀ (fuel iter delegs : Nat) (ms : List PMessage) (res : LoopResult) (r : LoopResult),
      loop_go jloads reg ws configs env stream maxM fuel iter delegs ms res = Except.ok r →
      res.error = none → r.error = none := by
  intro fuel
  induction fuel with
  | zero =>
    intro iter delegs ms res r h he
    cases h
    exact he
  | succ n ih =>
    intro iter delegs ms res r h he
    simp only [loop_go] at h
    cases hstep : loop_step jloads reg ws configs env stream maxM (iter + 1) delegs ms res with
    | raise e => rw [hstep] at h; cases h
    | halt r0 =>
      rw [hstep] at h
      have h2 : r0 = r := by injection h
      subst h2
      rw [(loop_step_error jloads reg ws configs env stream maxM (iter + 1) delegs ms res).1
        r0 hstep]
      exact he
    | next ms0 r0 d0 =>
      rw [hstep] at h
      exact ih (iter + 1) d0 ms0 r0 r h
        (((loop_step_error jloads reg ws configs env stream maxM (iter + 1) delegs ms
          res).2 ms0 r0 d0 hstep).trans he)

/-- Helper: the sub-agent loop's `error` field is `none` on success and
`"Timeout"` or `"Max iterations reached"` on failure. -/
theorem subagent_execute_go_error (jl2 : JLoads) (reg2 : ToolRegistryM) (env2 : SubEnv)
    (stream2 : Bool) :
    ∀ (fuel iter stats : Nat) (msgs : List PMessage),
      ((subagent_execute_go jl2 reg2 env2 stream2 fuel iter msgs stats).success = true →
        (subagent_execute_go jl2 reg2 env2 stream2 fuel iter msgs stats).error = none) ∧
      ((subagent_execute_go jl2 reg2 env2 stream2 fuel iter msgs stats).success = false →
        (subagent_execute_go jl2 reg2 env2 stream2 fuel iter msgs stats).error =
            some (("Timeout").data) ∨
          (subagent_execute_go jl2 reg2 env2 stream2 fuel iter msgs stats).error =
            some (("Max iterations reached").data)) := by
  intro fuel
  induction fuel with
  | zero =>
    intro iter stats msgs
    constructor
    · intro h
      cases h
    · intro _
      right
      rfl
  | succ n ih =>
    intro iter stats msgs
    simp only [subagent_execute_go]
    split
    · constructor
      · intro _
        rfl
      · intro h
        cases h
    · split
      · constructor
        · intro h
          cases h
        · intro _
          left
          rfl
      · exact ih _ _ _

/-- C3 counterexample: a model that never stops and never calls tools makes
the top-level loop exhaust `max_iterations = 2` and return
`{"success": False, ...}` with no `error` entry at all — not
`error = "max iterations reached"` as claimed.  (agent.py `_run_agent_loop`
never writes an `error` key.) -/
theorem c3_counterexample :
    run_agent_loop (fun _ => none) ⟨[]⟩ (("w").data) []
        ⟨fun _ => ⟨("x").data, [], MRStop.tool_use⟩, fun _ => false, fun _ => false,
          fun _ => ⟨fun _ => ⟨[], [], MRStop.stop⟩, fun _ => false⟩⟩
        [] 2 50 false =
      Except.ok ⟨false, ("x").data, [], [], 2, none⟩ ∧
    (none : Option (List Char)) ≠ some (("max iterations reached").data) := by
  constructor
  · rfl
  · intro h
    cases h

/-- C3 as amended: the top-level loop's result never carries an error — its
`error` entry is absent (`none`) on every outcome, successful or not; it is
only the *sub-agent* loop (`SubAgent.execute`) whose result populates
`error` exactly when `success` is false, with `"Timeout"` or
`"Max iterations reached"` (and in particular `"Max iterations reached"` on
iteration exhaustion without an explicit error). -/
theorem c3_error_field (jloads : JLoads) (reg : ToolRegistryM) (ws : List Char)
    (configs : List (List Char × SubAgentConfig)) (env : AgentEnv)
    (messages : List PMessage) (maxI maxM : Nat) (stream : Bool) (r : LoopResult)
    (hr : run_agent_loop jloads reg ws configs env messages maxI maxM stream = Except.ok r)
    (jl2 : JLoads) (reg2 : ToolRegistryM) (env2 : SubEnv) (stream2 : Bool)
    (fuel iter stats : Nat) (msgs2 : List PMessage) :
    r.error = none ∧
    ((subagent_execute_go jl2 reg2 env2 stream2 fuel iter msgs2 stats).success = true →
      (subagent_execute_go jl2 reg2 env2 stream2 fuel iter msgs2 stats).error = none) ∧
    ((subagent_execute_go jl2 reg2 env2 stream2 fuel iter msgs2 stats).success = false →
      (subagent_execute_go jl2 reg2 env2 stream2 fuel iter msgs2 stats).error =
          some (("Timeout").data) ∨
        (subagent_execute_go jl2 reg2 env2 stream2 fuel iter msgs2 stats).error =
          some (("Max iterations reached").data)) :=
  ⟨loop_go_error jloads reg ws configs env stream maxM maxI 0 0 messages initLoopResult r
      hr rfl,
    (subagent_execute_go_error jl2 reg2 env2 stream2 fuel iter stats msgs2).1,
    (subagent_execute_go_error jl2 reg2 env2 stream2 fuel iter stats msgs2).2⟩

/-- C3 witness: a one-iteration successful run has `error = none`, and an
exhausted sub-agent loop reports one of the two failure messages. -/
theorem c3_error_field_witness :
    (⟨true, ("y").data, [], [], 1, none⟩ : LoopResult).error = none ∧
    ((subagent_execute_go (fun _ => none) ⟨[]⟩
          ⟨fun _ => ⟨[], [], MRStop.stop⟩, fun _ => false⟩ false 0 0 [] 0).error =
        some (("Timeout").data) ∨
      (subagent_execute_go (fun _ => none) ⟨[]⟩
          ⟨fun _ => ⟨[], [], MRStop.stop⟩, fun _ => false⟩ false 0 0 [] 0).error =
        some (("Max iterations reached").data)) := by
  have h := c3_error_field (fun _ => none) ⟨[]⟩ (("w").data) []
    ⟨fun _ => ⟨("y").data, [], MRStop.stop⟩, fun _ => false, fun _ => false,
      fun _ => ⟨fun _ => ⟨[], [], MRStop.stop⟩, fun _ => false⟩⟩
    [] 1 50 false ⟨true, ("y").data, [], [], 1, none⟩ rfl
    (fun _ => none) ⟨[]⟩ ⟨fun _ => ⟨[], [], MRStop.stop⟩, fun _ => false⟩ false 0 0 0 []
  exact ⟨h.1, h.2.2 rfl⟩

/-- C9 counterexample: on the public delegation surface
(`SubAgentManager.execute_task_async`, used by `Agent.run_subagent`), the
unknown name `"ghost"` does not yield `{success: False, error: "Unknown
subagent: ghost"}` — the manager silently falls back to a fresh `"default"`
sub-agent and executes the task, here successfully. -/
theorem c9_counterexample :
    (execute_task_async (fun _ => none) ⟨[]⟩ (("w").data) [] (some (("ghost").data))
        ⟨fun _ => ⟨("hello").data, [], MRStop.stop⟩, fun _ => false⟩
        (("t").data) [] false).success = true ∧
    (execute_task_async (fun _ => none) ⟨[]⟩ (("w").data) [] (some (("ghost").data))
        ⟨fun _ => ⟨("hello").data, [], MRStop.stop⟩, fun _ => false⟩
        (("t").data) [] false).error = none := by
  constructor
  · rfl
  · rfl

/-- C9 as amended: a model-issued `subagent_<name>` call with an unregistered
name yields the immediate failure record `{success: False, error: "Unknown
subagent: <name>"}` without raising, and the parent loop continues past such
an iteration; but the public `execute_task_async` surface instead falls back
to running the task on a fresh `"default"` sub-agent when the name is
unknown. -/
theorem c9_unknown_subagent (jloads : JLoads) (reg : ToolRegistryM) (ws : List Char)
    (configs : List (List Char × SubAgentConfig)) (env : AgentEnv) (senv : SubEnv)
    (tc : SToolCall) (stream : Bool) (maxM iter delegs : Nat) (messages : List PMessage)
    (result : LoopResult) (task : List Char) (ctx : List PMessage) (name : List Char)
    (h1 : cfgLookup configs (replaceAll tc.name subagentPre []) = none)
    (h2 : (env.script (iter - 1)).tool_calls = [tc])
    (h3 : is_subagent_call tc = true)
    (h4 : env.timeOutTools iter = false)
    (h5 : cfgLookup configs name = none) :
    execute_subagent jloads reg ws configs senv tc =
      ⟨tc.id, replaceAll tc.name subagentPre [],
        ⟨false, [], 0, some ((("Unknown subagent: ").data ++ replaceAll tc.name subagentPre []))⟩⟩ ∧
    (∃ ms r d, loop_step jloads reg ws configs env stream maxM iter delegs messages result =
      StepRes.next ms r d) ∧
    execute_task_async jloads reg ws configs (some name) senv task ctx stream =
      subagent_execute jloads reg ws default_subagent_config senv stream task ctx := by
  refine ⟨?_, ?_, ?_⟩
  · simp only [execute_subagent, h1]
  · simp only [loop_step, h2]
    have hsub : [tc].filter is_subagent_call = [tc] := by
      simp [List.filter, h3]
    have hord : [tc].filter (fun tc => ¬ is_subagent_call tc) = [] := by
      simp [List.filter, h3]
    simp only [hsub, hord]
    simp only [ne_eq, List.cons_ne_self, not_false_iff, if_true, reduceIte,
      List.cons_ne_nil, h4]
    exact ⟨_, _, _, rfl⟩
  · simp only [execute_task_async, h5, Option.isSome_none, Bool.and_false]
    rfl

/-- C9 witness: the concrete unregistered delegation `subagent_ghost`. -/
theorem c9_unknown_subagent_witness :
    execute_subagent (fun _ => none) ⟨[]⟩ (("w").data) []
        ⟨fun _ => ⟨[], [], MRStop.stop⟩, fun _ => false⟩
        ⟨("i").data, ("function").data, ("subagent_ghost").data, []⟩ =
      ⟨("i").data, replaceAll (("subagent_ghost").data) subagentPre [],
        ⟨false, [], 0,
          some ((("Unknown subagent: ").data ++
            replaceAll (("subagent_ghost").data) subagentPre []))⟩⟩ ∧
    (∃ ms r d, loop_step (fun _ => none) ⟨[]⟩ (("w").data) []
        ⟨fun _ => ⟨[], [⟨("i").data, ("function").data, ("subagent_ghost").data, []⟩],
            MRStop.tool_use⟩,
          fun _ => false, fun _ => false,
          fun _ => ⟨fun _ => ⟨[], [], MRStop.stop⟩, fun _ => false⟩⟩
        false 50 1 0 [] initLoopResult = StepRes.next ms r d) ∧
    execute_task_async (fun _ => none) ⟨[]⟩ (("w").data) [] (some (("ghost").data))
        ⟨fun _ => ⟨[], [], MRStop.stop⟩, fun _ => false⟩ (("task").data) [] false =
      subagent_execute (fun _ => none) ⟨[]⟩ (("w").data) default_subagent_config
        ⟨fun _ => ⟨[], [], MRStop.stop⟩, fun _ => false⟩ false (("task").data) [] :=
  c9_unknown_subagent (fun _ => none) ⟨[]⟩ (("w").data) []
    ⟨fun _ => ⟨[], [⟨("i").data, ("function").data, ("subagent_ghost").data, []⟩],
        MRStop.tool_use⟩,
      fun _ => false, fun _ => false,
      fun _ => ⟨fun _ => ⟨[], [], MRStop.stop⟩, fun _ => false⟩⟩
    ⟨fun _ => ⟨[], [], MRStop.stop⟩, fun _ => false⟩
    ⟨("i").data, ("function").data, ("subagent_ghost").data, []⟩
    false 50 1 0 [] initLoopResult (("task").data) [] (("ghost").data)
    rfl rfl (by decide) rfl rfl

/-- The arguments dict `Agent._execute_tools` parses for a call
(`json.loads(args_str) if args_str else {}`) when the document is valid. -/
def parsedArgsOf (jloads : JLoads) (tc : SToolCall) : PyDict :=
  if tc.arguments = [] then [] else (jloads tc.arguments).getD []

/-- The result record `Agent._execute_tools` builds for one call with valid
arguments. -/
def ordResultOf (jloads : JLoads) (reg : ToolRegistryM) (tc : SToolCall) : PToolResult :=
  ⟨tc.id, tc.name, execute_tool reg tc.name (parsedArgsOf jloads tc),
    ¬ startsWithSub (execute_tool reg tc.name (parsedArgsOf jloads tc)) errPre⟩

/-- Helper: one step of `_execute_tools` with successfully parsed
arguments. -/
theorem execute_tools_go_cons_ok (jloads : JLoads) (reg : ToolRegistryM) (tc : SToolCall)
    (rest : List SToolCall) (acc : List PToolResult) (args : PyDict)
    (hargs : (if tc.arguments = [] then (Except.ok [] : Except PyExc PyDict)
        else match jloads tc.arguments with
          | some d => Except.ok d
          | none => Except.error (PyExc.jsonDecodeError tc.arguments)) = Except.ok args) :
    execute_tools_go jloads reg (tc :: rest) acc =
      execute_tools_go jloads reg rest
        (acc ++ [⟨tc.id, tc.name, execute_tool reg tc.name args,
          ¬ startsWithSub (execute_tool reg tc.name args) errPre⟩]) := by
  simp only [execute_tools_go]
  rw [hargs]

/-- Helper: with parseable arguments, `_execute_tools` processes every call
of the batch, in order, regardless of the individual outcomes. -/
theorem execute_tools_go_ok (jloads : JLoads) (reg : ToolRegistryM) :
    ∀ (calls : List SToolCall) (acc : List PToolResult),
      (∀ tc ∈ calls, tc.arguments = [] ∨ (jloads tc.arguments).isSome) →
      execute_tools_go jloads reg calls acc =
        Except.ok (acc ++ calls.map (ordResultOf jloads reg)) := by
  intro calls
  induction calls with
  | nil => intro acc _; simp [execute_tools_go]
  | cons tc rest ih =>
    intro acc h
    have htc := h tc (by simp)
    have hrest : ∀ tc2 ∈ rest, tc2.arguments = [] ∨ (jloads tc2.arguments).isSome :=
      fun tc2 hm => h tc2 (by simp [hm])
    by_cases he : tc.arguments = []
    · rw [execute_tools_go_cons_ok jloads reg tc rest acc [] (by rw [if_pos he])]
      rw [ih _ hrest]
      have hres : ordResultOf jloads reg tc =
          ⟨tc.id, tc.name, execute_tool reg tc.name [],
            ¬ startsWithSub (execute_tool reg tc.name []) errPre⟩ := by
        simp [ordResultOf, parsedArgsOf, he]
      rw [List.map_cons, hres]
      simp
    · rcases htc with he2 | hs
      · exact absurd he2 he
      · rcases Option.isSome_iff_exists.mp hs with ⟨d, hd⟩
        rw [execute_tools_go_cons_ok jloads reg tc rest acc d (by rw [if_neg he, hd])]
        rw [ih _ hrest]
        have hres : ordResultOf jloads reg tc =
            ⟨tc.id, tc.name, execute_tool reg tc.name d,
              ¬ startsWithSub (execute_tool reg tc.name d) errPre⟩ := by
          simp [ordResultOf, parsedArgsOf, he, hd]
        rw [List.map_cons, hres]
        simp

/-- Helper: `_execute_tools` on a parseable batch returns one result per
call, in issue order. -/
theorem execute_tools_ok (jloads : JLoads) (reg : ToolRegistryM) (calls : List SToolCall)
    (h : ∀ tc ∈ calls, tc.arguments = [] ∨ (jloads tc.arguments).isSome) :
    execute_tools jloads reg calls = Except.ok (calls.map (ordResultOf jloads reg)) := by
  unfold execute_tools
  rw [execute_tools_go_ok jloads reg calls [] h]
  rfl

/-- Helper: a batch of only-ordinary calls has no sub-agent partition. -/
theorem filter_sub_nil (calls : List SToolCall)
    (h : ∀ tc ∈ calls, is_subagent_call tc = false) :
    calls.filter is_subagent_call = [] := by
  induction calls with
  | nil => rfl
  | cons tc rest ih =>
    rw [List.filter_cons_of_neg (by simp [h tc (by simp)])]
    exact ih fun tc2 hm => h tc2 (by simp [hm])

/-- Helper: a batch of only-ordinary calls is its own ordinary partition. -/
theorem filter_ord_self (calls : List SToolCall)
    (h : ∀ tc ∈ calls, is_subagent_call tc = false) :
    calls.filter (fun tc => ¬ is_subagent_call tc) = calls := by
  induction calls with
  | nil => rfl
  | cons tc rest ih =>
    rw [List.filter_cons_of_pos (by simp [h tc (by simp)])]
    rw [ih fun tc2 hm => h tc2 (by simp [hm])]

/-- Helper: a `break` of the loop body reports the entered iteration
count. -/
theorem loop_step_halt_iterations (jloads : JLoads) (reg : ToolRegistryM) (ws : List Char)
    (configs : List (List Char × SubAgentConfig)) (env : AgentEnv) (stream : Bool)
    (maxM iter delegs : Nat) (messages : List PMessage) (result : LoopResult) :
    ∀ r, loop_step jloads reg ws configs env stream maxM iter delegs messages result =
      StepRes.halt r → r.iterations = iter := by
  intro r h
  simp only [loop_step] at h
  split at h
  · split at h
    · exact absurd h (by simp)
    · split at h
      · cases h; rfl
      · exact absurd h (by simp)
  · split at h
    · cases h; rfl
    · split at h
      · cases h; rfl
      · split at h
        · cases h; rfl
        · exact absurd h (by simp)

/-- Helper: a completed loop run reports at least as many iterations as it
had already entered. -/
theorem loop_go_iterations_ge (jloads : JLoads) (reg : ToolRegistryM) (ws : List Char)
    (configs : List (List Char × SubAgentConfig)) (env : AgentEnv) (stream : Bool)
    (maxM : Nat) :
    ∀ (fuel iter delegs : Nat) (ms : List PMessage) (res : LoopResult) (r : LoopResult),
      loop_go jloads reg ws configs env stream maxM fuel iter delegs ms res = Except.ok r →
      iter ≤ r.iterations := by
  intro fuel
  induction fuel with
  | zero =>
    intro iter delegs ms res r h
    cases h
    exact Nat.le_refl iter
  | succ n ih =>
    intro iter delegs ms res r h
    simp only [loop_go] at h
    cases hstep : loop_step jloads reg ws configs env stream maxM (iter + 1) delegs ms res with
    | raise e => rw [hstep] at h; cases h
    | halt r0 =>
      rw [hstep] at h
      have h2 : r0 = r := by injection h
      subst h2
      rw [loop_step_halt_iterations jloads reg ws configs env stream maxM (iter + 1) delegs
        ms res r0 hstep]
      exact Nat.le_succ iter
    | next ms0 r0 d0 =>
      rw [hstep] at h
      exact Nat.le_of_succ_le (ih (iter + 1) d0 ms0 r0 r h)

/-- Helper: a run with fuel left reports at least one more iteration than
already entered. -/
theorem loop_go_iterations_succ (jloads : JLoads) (reg : ToolRegistryM) (ws : List Char)
    (configs : List (List Char × SubAgentConfig)) (env : AgentEnv) (stream : Bool)
    (maxM : Nat) (fuel iter delegs : Nat) (ms : List PMessage) (res : LoopResult)
    (r : LoopResult)
    (h : loop_go jloads reg ws configs env stream maxM (fuel + 1) iter delegs ms res =
      Except.ok r) :
    iter + 1 ≤ r.iterations := by
  simp only [loop_go] at h
  cases hstep : loop_step jloads reg ws configs env stream maxM (iter + 1) delegs ms res with
  | raise e => rw [hstep] at h; cases h
  | halt r0 =>
    rw [hstep] at h
    have h2 : r0 = r := by injection h
    subst h2
    rw [loop_step_halt_iterations jloads reg ws configs env stream maxM (iter + 1) delegs
      ms res r0 hstep]
  | next ms0 r0 d0 =>
    rw [hstep] at h
    exact loop_go_iterations_ge jloads reg ws configs env stream maxM fuel (iter + 1) d0
      ms0 r0 r h

/-- C1 counterexample: in the batch of iteration 1 the tool `boom` raises an
exception with message `"DONE"` while the ordinary call `echo` is pending.
The loop does not terminate with `content = "DONE"`: the exception is
converted to an error string, both calls run, and the run ends at iteration
2 with the model's own content `"bye"`. -/
theorem c1_counterexample :
    run_agent_loop (fun _ => none)
        ⟨[((("boom").data), ⟨("d").data, 30, fun _ => ToolBehavior.raises (("DONE").data)⟩),
          ((("echo").data), ⟨("d").data, 30, fun _ => ToolBehavior.ok (("hi").data)⟩)]⟩
        (("w").data) []
        ⟨fun n => if n = 0 then
            ⟨[], [⟨("1").data, ("function").data, ("boom").data, []⟩,
                  ⟨("2").data, ("function").data, ("echo").data, []⟩], MRStop.tool_use⟩
          else ⟨("bye").data, [], MRStop.stop⟩,
          fun _ => false, fun _ => false,
          fun _ => ⟨fun _ => ⟨[], [], MRStop.stop⟩, fun _ => false⟩⟩
        [] 5 50 false =
      Except.ok ⟨true, ("bye").data, [("boom").data, ("echo").data], [], 2, none⟩ ∧
    (("bye").data : List Char) ≠ ("DONE").data := by
  exact ⟨rfl, by decide⟩

/-- C1 as amended: there is no final-answer signal.  An exception raised by
a tool is caught by the dispatcher and converted into the result string
`"Error: Tool execution failed: <msg>"` (success false) for that call alone;
every call of the batch is still dispatched in order; and an iteration with
tool calls never terminates the loop — a run that starts with such a batch
reaches at least a second iteration, its outcome decided only by the normal
stop-reason logic. -/
theorem c1_no_final_answer (reg : ToolRegistryM) (name2 : List Char) (kwargs : PyDict)
    (tool : PTool) (msg : List Char)
    (hlook : registryGet reg name2 = some tool)
    (hraise : tool.behavior (dictPop kwargs (("timeout").data)).2 = ToolBehavior.raises msg)
    (jloads : JLoads) (calls : List SToolCall)
    (hargs : ∀ tc ∈ calls, tc.arguments = [] ∨ (jloads tc.arguments).isSome)
    (ws : List Char) (configs : List (List Char × SubAgentConfig)) (env : AgentEnv)
    (stream : Bool) (maxM maxI : Nat) (messages : List PMessage) (r : LoopResult)
    (hcalls : (env.script 0).tool_calls = calls)
    (hne : calls ≠ [])
    (hsub : ∀ tc ∈ calls, is_subagent_call tc = false)
    (ht1 : env.timeOutTools 1 = false)
    (hfuel : 2 ≤ maxI)
    (hrun : run_agent_loop jloads reg ws configs env messages maxI maxM stream = Except.ok r) :
    registryExecute reg name2 kwargs =
      (("Error: Tool execution failed: ").data ++ msg, reg) ∧
    execute_tools jloads reg calls = Except.ok (calls.map (ordResultOf jloads reg)) ∧
    (calls.map (ordResultOf jloads reg)).length = calls.length ∧
    2 ≤ r.iterations := by
  refine ⟨?_, execute_tools_ok jloads reg calls hargs, by simp, ?_⟩
  · simp only [registryExecute, hlook, hraise]
  · have hstep : ∃ ms r1 d, loop_step jloads reg ws configs env stream maxM 1 0 messages
        initLoopResult = StepRes.next ms r1 d := by
      simp only [loop_step, show (1 : Nat) - 1 = 0 from rfl, hcalls,
        filter_sub_nil calls hsub, filter_ord_self calls hsub]
      simp only [ne_eq, hne, not_false_iff, if_true, reduceIte, processSubs,
        execute_tools_ok jloads reg calls hargs, ht1]
      exact ⟨_, _, _, rfl⟩
    obtain ⟨ms1, r1, d1, hstep1⟩ := hstep
    obtain ⟨n, rfl⟩ : ∃ n, maxI = n + 2 := ⟨maxI - 2, by omega⟩
    simp only [run_agent_loop] at hrun
    simp only [show n + 2 = (n + 1) + 1 from rfl, loop_go, Nat.zero_add] at hrun
    rw [hstep1] at hrun
    exact loop_go_iterations_succ jloads reg ws configs env stream maxM n 1 d1 ms1 r1 r hrun

/-- Concrete registry for the C1 witness: `boom` raises, `echo` returns. -/
def c1reg : ToolRegistryM :=
  ⟨[((("boom").data), ⟨("d").data, 30, fun _ => ToolBehavior.raises (("DONE").data)⟩),
    ((("echo").data), ⟨("d").data, 30, fun _ => ToolBehavior.ok (("hi").data)⟩)]⟩

/-- Concrete batch for the C1 witness. -/
def c1calls : List SToolCall :=
  [⟨("1").data, ("function").data, ("boom").data, []⟩,
   ⟨("2").data, ("function").data, ("echo").data, []⟩]

/-- Concrete loop environment for the C1 witness. -/
def c1env : AgentEnv :=
  ⟨fun n => if n = 0 then ⟨[], c1calls, MRStop.tool_use⟩ else ⟨("bye").data, [], MRStop.stop⟩,
    fun _ => false, fun _ => false,
    fun _ => ⟨fun _ => ⟨[], [], MRStop.stop⟩, fun _ => false⟩⟩

/-- C1 witness: the amended statement at the concrete raising batch. -/
theorem c1_no_final_answer_witness :
    registryExecute c1reg (("boom").data) [] =
      (("Error: Tool execution failed: ").data ++ ("DONE").data, c1reg) ∧
    execute_tools (fun _ => none) c1reg c1calls =
      Except.ok (c1calls.map (ordResultOf (fun _ => none) c1reg)) ∧
    (c1calls.map (ordResultOf (fun _ => none) c1reg)).length = c1calls.length ∧
    2 ≤ (⟨true, ("bye").data, [("boom").data, ("echo").data], [], 2, none⟩ : LoopResult).iterations :=
  c1_no_final_answer c1reg (("boom").data) []
    ⟨("d").data, 30, fun _ => ToolBehavior.raises (("DONE").data)⟩ (("DONE").data)
    rfl rfl (fun _ => none) c1calls (by decide) (("w").data) [] c1env false 50 5 []
    ⟨true, ("bye").data, [("boom").data, ("echo").data], [], 2, none⟩
    rfl (by decide) (by decide) rfl (by decide) rfl

/-- Helper: a delegation result always carries the issuing call's id. -/
theorem execute_subagent_id (jloads : JLoads) (reg : ToolRegistryM) (ws : List Char)
    (configs : List (List Char × SubAgentConfig)) (senv : SubEnv) (tc : SToolCall) :
    (execute_subagent jloads reg ws configs senv tc).tool_use_id = tc.id := by
  simp only [execute_subagent]
  split <;> rfl

/-- Helper: sequential sub-agent dispatch appends exactly one `tool` message
per delegation, in issue order, each tagged with the issuing call's id. -/
theorem processSubs_spec (jloads : JLoads) (reg : ToolRegistryM) (ws : List Char)
    (configs : List (List Char × SubAgentConfig)) (env : AgentEnv) :
    ∀ (l : List SToolCall) (delegs : Nat) (ms : List PMessage) (res : LoopResult),
      ∃ L : List PMessage,
        (processSubs jloads reg ws configs env l delegs ms res).1 = ms ++ L ∧
        L.map (fun m => m.tool_call_id) = l.map (fun tc => some tc.id) ∧
        (∀ m ∈ L, m.role = ("tool").data) := by
  intro l
  induction l with
  | nil =>
    intro delegs ms res
    exact ⟨[], by simp [processSubs], by simp, by simp⟩
  | cons tc rest ih =>
    intro delegs ms res
    simp only [processSubs]
    obtain ⟨L, h1, h2, h3⟩ := ih (delegs + 1)
      (ms ++ [({role := ("tool").data,
                content := ("[").data ++
                  (execute_subagent jloads reg ws configs
                    (env.subEnvAt delegs) tc).subagent_name ++ ("] ").data ++
                  (execute_subagent jloads reg ws configs
                    (env.subEnvAt delegs) tc).result.summary,
                tool_call_id := some (execute_subagent jloads reg ws configs
                  (env.subEnvAt delegs) tc).tool_use_id} : PMessage)])
      {res with subagent_results := res.subagent_results ++
        [execute_subagent jloads reg ws configs (env.subEnvAt delegs) tc]}
    refine ⟨({role := ("tool").data,
              content := ("[").data ++
                (execute_subagent jloads reg ws configs
                  (env.subEnvAt delegs) tc).subagent_name ++ ("] ").data ++
                (execute_subagent jloads reg ws configs
                  (env.subEnvAt delegs) tc).result.summary,
              tool_call_id := some (execute_subagent jloads reg ws configs
                (env.subEnvAt delegs) tc).tool_use_id} : PMessage) :: L, ?_, ?_, ?_⟩
    · rw [h1]
      simp
    · simp only [List.map_cons, h2]
      rw [execute_subagent_id]
    · intro m hm
      rw [List.mem_cons] at hm
      rcases hm with hm | hm
      · subst hm; rfl
      · exact h3 m hm

/-- The `tool` message built from one ordinary tool result (agent.py line
227). -/
def toolMsgOf (r : PToolResult) : PMessage :=
  {role := ("tool").data, content := r.output, tool_call_id := some r.tool_use_id}

/-- The `assistant` message appended for one model response (agent.py lines
187-200). -/
def assistantMsgOf (content : List Char) (tcs : List SToolCall) : PMessage :=
  {role := ("assistant").data, content := content, tool_calls := tcs}

/-- C6 as amended: within one iteration, order is preserved only inside each
class of calls — every sub-agent call appends exactly one `tool` message, in
issue order, and every ordinary call appends exactly one `tool` message, in
issue order, each tagged with the issuing call's id — but all sub-agent
responses are appended before all ordinary responses, regardless of how the
model interleaved the two kinds in the batch. -/
theorem c6_batch_order (jloads : JLoads) (reg : ToolRegistryM) (ws : List Char)
    (configs : List (List Char × SubAgentConfig)) (env : AgentEnv) (stream : Bool)
    (maxM iter delegs : Nat) (messages : List PMessage) (result : LoopResult)
    (tcs : List SToolCall)
    (htcs : (env.script (iter - 1)).tool_calls = tcs)
    (hne : tcs ≠ [])
    (hargs : ∀ tc ∈ tcs.filter (fun tc => ¬ is_subagent_call tc),
      tc.arguments = [] ∨ (jloads tc.arguments).isSome)
    (ht1 : env.timeOutTools iter = false) :
    ∃ ms r d L O,
      loop_step jloads reg ws configs env stream maxM iter delegs messages result =
        StepRes.next ms r d ∧
      ms = prune_messages messages maxM ++
        [assistantMsgOf (env.script (iter - 1)).content tcs] ++ L ++ O ∧
      L.map (fun m => m.tool_call_id) =
        (tcs.filter is_subagent_call).map (fun tc => some tc.id) ∧
      (∀ m ∈ L, m.role = ("tool").data) ∧
      O.map (fun m => m.tool_call_id) =
        (tcs.filter (fun tc => ¬ is_subagent_call tc)).map (fun tc => some tc.id) ∧
      (∀ m ∈ O, m.role = ("tool").data) := by
  have hexec : (if tcs.filter (fun tc => ¬ is_subagent_call tc) ≠ [] then
      execute_tools jloads reg (tcs.filter (fun tc => ¬ is_subagent_call tc))
      else Except.ok []) =
      Except.ok ((tcs.filter (fun tc => ¬ is_subagent_call tc)).map
        (ordResultOf jloads reg)) := by
    by_cases h : tcs.filter (fun tc => ¬ is_subagent_call tc) = []
    · rw [h]
      simp
    · simp only [ne_eq, h, not_false_iff, if_true, reduceIte]
      exact execute_tools_ok jloads reg _ hargs
  obtain ⟨L, hL1, hL2, hL3⟩ := processSubs_spec jloads reg ws configs env
    (tcs.filter is_subagent_call) delegs
    (prune_messages messages maxM ++
      [assistantMsgOf (env.script (iter - 1)).content tcs])
    {result with content := (env.script (iter - 1)).content}
  have hstep : ∃ r d, loop_step jloads reg ws configs env stream maxM iter delegs messages
      result = StepRes.next
        ((processSubs jloads reg ws configs env (tcs.filter is_subagent_call) delegs
          (prune_messages messages maxM ++
            [assistantMsgOf (env.script (iter - 1)).content tcs])
          {result with content := (env.script (iter - 1)).content}).1 ++
        ((tcs.filter (fun tc => ¬ is_subagent_call tc)).map
          (ordResultOf jloads reg)).map toolMsgOf) r d := by
    simp only [loop_step, htcs]
    simp only [ne_eq, hne, not_false_iff, if_true, reduceIte, hexec, ht1]
    exact ⟨_, _, rfl⟩
  obtain ⟨r, d, hstep⟩ := hstep
  refine ⟨_, r, d, L,
    ((tcs.filter (fun tc => ¬ is_subagent_call tc)).map (ordResultOf jloads reg)).map
      toolMsgOf,
    hstep, ?_, hL2, hL3, ?_, ?_⟩
  · rw [hL1]
  · simp only [List.map_map]
    rfl
  · intro m hm
    simp only [List.mem_map] at hm
    obtain ⟨r0, _, hr0⟩ := hm
    rw [← hr0]
    rfl

/-- Projection of a continuing iteration's message history. -/
def stepNextMessages : StepRes → Option (List PMessage)
  | StepRes.next ms _ _ => some ms
  | _ => none

/-- C6 counterexample: the model issues the ordinary call `echo` (id `a`)
*before* the sub-agent call `subagent_s` (id `b`), but the iteration appends
the tool-response messages in the order `b, a` — the sub-agent partition is
processed first, so the appended order differs from issue order. -/
theorem c6_counterexample :
    ((stepNextMessages (loop_step (fun _ => none)
        ⟨[((("echo").data), ⟨("d").data, 30, fun _ => ToolBehavior.ok (("hi").data)⟩)]⟩
        (("w").data) [((("s").data), ⟨("s").data, ("d").data, [], [], 3, 300, []⟩)]
        ⟨fun _ => ⟨[], [⟨("a").data, ("function").data, ("echo").data, []⟩,
                        ⟨("b").data, ("function").data, ("subagent_s").data, []⟩],
                   MRStop.tool_use⟩,
          fun _ => false, fun _ => false,
          fun _ => ⟨fun _ => ⟨("done").data, [], MRStop.stop⟩, fun _ => false⟩⟩
        false 50 1 0 [] initLoopResult)).map
      (fun ms => (ms.filter (fun m => m.role = ("tool").data)).map
        (fun m => m.tool_call_id))) =
      some [some (("b").data), some (("a").data)] ∧
    ([⟨("a").data, ("function").data, ("echo").data, []⟩,
      ⟨("b").data, ("function").data, ("subagent_s").data, []⟩] :
        List SToolCall).map (fun tc => tc.id) = [("a").data, ("b").data] ∧
    ([some (("b").data), some (("a").data)] : List (Option (List Char))) ≠
      [some (("a").data), some (("b").data)] := by
  refine ⟨by decide, by decide, by decide⟩

/-- C6 witness: the amended per-class ordering at a concrete all-ordinary
batch. -/
theorem c6_batch_order_witness :
    ∃ ms r d L O,
      loop_step (fun _ => none) c1reg (("w").data) [] c1env false 50 1 0 [] initLoopResult =
        StepRes.next ms r d ∧
      ms = prune_messages [] 50 ++
        [assistantMsgOf (c1env.script 0).content c1calls] ++ L ++ O ∧
      L.map (fun m => m.tool_call_id) =
        (c1calls.filter is_subagent_call).map (fun tc => some tc.id) ∧
      (∀ m ∈ L, m.role = ("tool").data) ∧
      O.map (fun m => m.tool_call_id) =
        (c1calls.filter (fun tc => ¬ is_subagent_call tc)).map (fun tc => some tc.id) ∧
      (∀ m ∈ O, m.role = ("tool").data) :=
  c6_batch_order (fun _ => none) c1reg (("w").data) [] c1env false 50 1 0 [] initLoopResult
    c1calls rfl (by decide) (by decide) rfl

/-- The pairing invariant of §3: scanning the history, an `assistant`
message opens the set of tool-call ids that the directly following `tool`
messages may reference; any other role closes it. -/
def pairingGo (current : List (List Char)) : List PMessage → Bool
  | [] => true
  | m :: rest =>
    if m.role = ("tool").data then
      (match m.tool_call_id with
       | some cid => decide (cid ∈ current)
       | none => false) && pairingGo current rest
    else if m.role = ("assistant").data then
      pairingGo (m.tool_calls.map (fun tc => tc.id)) rest
    else pairingGo [] rest

/-- Every `tool` message's `tool_call_id` references a `ToolCall` of the
immediately preceding `assistant` message still present in the history. -/
def tool_pairing_ok (messages : List PMessage) : Bool := pairingGo [] messages

/-- C2 counterexample: with `max_messages = 2` the window cut lands between
an assistant message carrying a tool call and its `tool` response, so the
pruned history keeps the `tool` message (id `x`) while dropping its
assistant message — the pairing invariant breaks. -/
theorem c2_counterexample :
    tool_pairing_ok
      [⟨("system").data, [], [], none⟩, ⟨("user").data, ("hi").data, [], none⟩,
       ⟨("assistant").data, [], [⟨("x").data, ("function").data, ("f").data, []⟩], none⟩,
       ⟨("tool").data, ("ok").data, [], some (("x").data)⟩,
       ⟨("assistant").data, ("done").data, [], none⟩] = true ∧
    prune_messages
      [⟨("system").data, [], [], none⟩, ⟨("user").data, ("hi").data, [], none⟩,
       ⟨("assistant").data, [], [⟨("x").data, ("function").data, ("f").data, []⟩], none⟩,
       ⟨("tool").data, ("ok").data, [], some (("x").data)⟩,
       ⟨("assistant").data, ("done").data, [], none⟩] 2 =
      [⟨("system").data, [], [], none⟩,
       ⟨("tool").data, ("ok").data, [], some (("x").data)⟩,
       ⟨("assistant").data, ("done").data, [], none⟩] ∧
    tool_pairing_ok
      [⟨("system").data, [], [], none⟩,
       ⟨("tool").data, ("ok").data, [], some (("x").data)⟩,
       ⟨("assistant").data, ("done").data, [], none⟩] = false := by
  refine ⟨by decide, by decide, by decide⟩

/-- C2 as amended: pruning is a pure count-based window — a history at or
under the bound is returned unchanged, and an over-long history is cut to
the first message (kept only when it is the `system` head) plus the last
`max_messages` messages verbatim; it never inspects tool pairing, so an
assistant+tool pair can be split (see the counterexample). -/
theorem c2_prune_window (messages : List PMessage) (max_msgs : Nat) (hmax : 1 ≤ max_msgs) :
    (messages.length ≤ max_msgs → prune_messages messages max_msgs = messages) ∧
    (max_msgs < messages.length →
      (prune_messages messages max_msgs).length ≤ max_msgs + 1 ∧
      ∃ pre, prune_messages messages max_msgs =
          pre ++ messages.drop (messages.length - max_msgs) ∧
        pre.length ≤ 1 ∧ ∀ m ∈ pre, messages.head? = some m ∧ m.role = sysRole) := by
  constructor
  · intro h
    unfold prune_messages
    rw [if_pos h]
  · intro h
    unfold prune_messages pyTailSlice
    rw [if_neg (by omega), if_neg (by omega)]
    cases messages with
    | nil => simp at h
    | cons m0 rest =>
      simp only [List.head?]
      by_cases hrole : m0.role = sysRole
      · rw [if_pos hrole]
        refine ⟨?_, [m0], by simp, by simp, ?_⟩
        · simp only [List.length_cons, List.length_drop]
          omega
        · intro m hm
          simp only [List.mem_singleton] at hm
          subst hm
          exact ⟨rfl, hrole⟩
      · rw [if_neg hrole]
        refine ⟨?_, [], by simp, by simp, by intro m hm; simp at hm⟩
        simp only [List.length_drop]
        omega

/-- C2 witness: the amended window characterization at the counterexample's
history and bound. -/
theorem c2_prune_window_witness :
    (([⟨("system").data, [], [], none⟩, ⟨("user").data, ("hi").data, [], none⟩,
       ⟨("assistant").data, [], [⟨("x").data, ("function").data, ("f").data, []⟩], none⟩,
       ⟨("tool").data, ("ok").data, [], some (("x").data)⟩,
       ⟨("assistant").data, ("done").data, [], none⟩] : List PMessage).length ≤ 2 →
      prune_messages
        [⟨("system").data, [], [], none⟩, ⟨("user").data, ("hi").data, [], none⟩,
         ⟨("assistant").data, [], [⟨("x").data, ("function").data, ("f").data, []⟩], none⟩,
         ⟨("tool").data, ("ok").data, [], some (("x").data)⟩,
         ⟨("assistant").data, ("done").data, [], none⟩] 2 =
        [⟨("system").data, [], [], none⟩, ⟨("user").data, ("hi").data, [], none⟩,
         ⟨("assistant").data, [], [⟨("x").data, ("function").data, ("f").data, []⟩], none⟩,
         ⟨("tool").data, ("ok").data, [], some (("x").data)⟩,
         ⟨("assistant").data, ("done").data, [], none⟩]) ∧
    (2 < ([⟨("system").data, [], [], none⟩, ⟨("user").data, ("hi").data, [], none⟩,
       ⟨("assistant").data, [], [⟨("x").data, ("function").data, ("f").data, []⟩], none⟩,
       ⟨("tool").data, ("ok").data, [], some (("x").data)⟩,
       ⟨("assistant").data, ("done").data, [], none⟩] : List PMessage).length →
      (prune_messages
        [⟨("system").data, [], [], none⟩, ⟨("user").data, ("hi").data, [], none⟩,
         ⟨("assistant").data, [], [⟨("x").data, ("function").data, ("f").data, []⟩], none⟩,
         ⟨("tool").data, ("ok").data, [], some (("x").data)⟩,
         ⟨("assistant").data, ("done").data, [], none⟩] 2).length ≤ 2 + 1 ∧
      ∃ pre, prune_messages
          [⟨("system").data, [], [], none⟩, ⟨("user").data, ("hi").data, [], none⟩,
           ⟨("assistant").data, [], [⟨("x").data, ("function").data, ("f").data, []⟩], none⟩,
           ⟨("tool").data, ("ok").data, [], some (("x").data)⟩,
           ⟨("assistant").data, ("done").data, [], none⟩] 2 =
          pre ++ ([⟨("system").data, [], [], none⟩, ⟨("user").data, ("hi").data, [], none⟩,
           ⟨("assistant").data, [], [⟨("x").data, ("function").data, ("f").data, []⟩], none⟩,
           ⟨("tool").data, ("ok").data, [], some (("x").data)⟩,
           ⟨("assistant").data, ("done").data, [], none⟩] : List PMessage).drop
            (([⟨("system").data, [], [], none⟩, ⟨("user").data, ("hi").data, [], none⟩,
             ⟨("assistant").data, [], [⟨("x").data, ("function").data, ("f").data, []⟩], none⟩,
             ⟨("tool").data, ("ok").data, [], some (("x").data)⟩,
             ⟨("assistant").data, ("done").data, [], none⟩] : List PMessage).length - 2) ∧
        pre.length ≤ 1 ∧ ∀ m ∈ pre,
          ([⟨("system").data, [], [], none⟩, ⟨("user").data, ("hi").data, [], none⟩,
           ⟨("assistant").data, [], [⟨("x").data, ("function").data, ("f").data, []⟩], none⟩,
           ⟨("tool").data, ("ok").data, [], some (("x").data)⟩,
           ⟨("assistant").data, ("done").data, [], none⟩] : List PMessage).head? = some m ∧
          m.role = sysRole) :=
  c2_prune_window
    [⟨("system").data, [], [], none⟩, ⟨("user").data, ("hi").data, [], none⟩,
     ⟨("assistant").data, [], [⟨("x").data, ("function").data, ("f").data, []⟩], none⟩,
     ⟨("tool").data, ("ok").data, [], some (("x").data)⟩,
     ⟨("assistant").data, ("done").data, [], none⟩] 2 (by decide)

/-- C5 counterexample: with result history `[{tool: grep, output: HELLO}]`,
the sub-agent dispatcher passes the literal text `${tool_result.0}` to the
`echo` tool (which reflects its `x` argument), although the resolver applied
to the same arguments would substitute `HELLO` — placeholders are not
resolved on the dispatch path. -/
theorem c5_counterexample :
    (execute_subagent_tools
        (fun s => if s = ("A").data
          then some [((("x").data), PyVal.str (("$\x7btool_result.0\x7d").data))] else none)
        ⟨[((("echo").data), ⟨("d").data, 30,
          fun args => ToolBehavior.ok (dictGetStr args (("x").data) (("?").data))⟩)]⟩
        [⟨("c1").data, ("function").data, ("echo").data, ("A").data⟩]).map
      (fun r => r.output) = [("$\x7btool_result.0\x7d").data] ∧
    resolve_placeholders [((("x").data), PyVal.str (("$\x7btool_result.0\x7d").data))]
      [⟨("t1").data, ("grep").data, ("HELLO").data, true⟩] none =
      [((("x").data), PyVal.str (("HELLO").data))] ∧
    (("$\x7btool_result.0\x7d").data : List Char) ≠ ("HELLO").data := by
  refine ⟨by decide, by decide, by decide⟩

/-- C5 as amended: no dispatch path applies `_resolve_placeholders`.  The
sub-agent dispatcher passes each call's parsed arguments verbatim to
`execute_tool`, and the main agent's dispatcher likewise executes the parsed
arguments unchanged; the resolver exists (base.py) but is only exercised by
tests and demos. -/
theorem c5_no_resolution (jloads : JLoads) (reg : ToolRegistryM) (calls : List SToolCall)
    (hargs : ∀ tc ∈ calls, tc.arguments = [] ∨ (jloads tc.arguments).isSome) :
    execute_subagent_tools jloads reg calls = calls.map (fun tc =>
      ⟨tc.id, tc.name, execute_tool reg tc.name (parse_tool_args jloads tc.arguments),
        ¬ startsWithSub (execute_tool reg tc.name (parse_tool_args jloads tc.arguments))
          errPre⟩) ∧
    execute_tools jloads reg calls = Except.ok (calls.map (ordResultOf jloads reg)) := by
  have h1 : ∀ cs : List SToolCall, execute_subagent_tools jloads reg cs = cs.map (fun tc =>
      ⟨tc.id, tc.name, execute_tool reg tc.name (parse_tool_args jloads tc.arguments),
        ¬ startsWithSub (execute_tool reg tc.name (parse_tool_args jloads tc.arguments))
          errPre⟩) := by
    intro cs
    induction cs with
    | nil => rfl
    | cons tc rest ih =>
      simp only [execute_subagent_tools, List.map_cons]
      rw [ih]
  exact ⟨h1 calls, execute_tools_ok jloads reg calls hargs⟩

/-- C5 witness: the amended verbatim-dispatch statement at the
counterexample's concrete call. -/
theorem c5_no_resolution_witness :
    execute_subagent_tools
        (fun s => if s = ("A").data
          then some [((("x").data), PyVal.str (("$\x7btool_result.0\x7d").data))] else none)
        ⟨[((("echo").data), ⟨("d").data, 30,
          fun args => ToolBehavior.ok (dictGetStr args (("x").data) (("?").data))⟩)]⟩
        [⟨("c1").data, ("function").data, ("echo").data, ("A").data⟩] =
      ([⟨("c1").data, ("function").data, ("echo").data, ("A").data⟩] :
          List SToolCall).map (fun tc =>
        ⟨tc.id, tc.name,
          execute_tool
            ⟨[((("echo").data), ⟨("d").data, 30,
              fun args => ToolBehavior.ok (dictGetStr args (("x").data) (("?").data))⟩)]⟩
            tc.name
            (parse_tool_args
              (fun s => if s = ("A").data
                then some [((("x").data), PyVal.str (("$\x7btool_result.0\x7d").data))]
                else none) tc.arguments),
          ¬ startsWithSub
            (execute_tool
              ⟨[((("echo").data), ⟨("d").data, 30,
                fun args => ToolBehavior.ok (dictGetStr args (("x").data) (("?").data))⟩)]⟩
              tc.name
              (parse_tool_args
                (fun s => if s = ("A").data
                  then some [((("x").data), PyVal.str (("$\x7btool_result.0\x7d").data))]
                  else none) tc.arguments)) errPre⟩) ∧
    execute_tools
        (fun s => if s = ("A").data
          then some [((("x").data), PyVal.str (("$\x7btool_result.0\x7d").data))] else none)
        ⟨[((("echo").data), ⟨("d").data, 30,
          fun args => ToolBehavior.ok (dictGetStr args (("x").data) (("?").data))⟩)]⟩
        [⟨("c1").data, ("function").data, ("echo").data, ("A").data⟩] =
      Except.ok (([⟨("c1").data, ("function").data, ("echo").data, ("A").data⟩] :
          List SToolCall).map (ordResultOf
        (fun s => if s = ("A").data
          then some [((("x").data), PyVal.str (("$\x7btool_result.0\x7d").data))] else none)
        ⟨[((("echo").data), ⟨("d").data, 30,
          fun args => ToolBehavior.ok (dictGetStr args (("x").data) (("?").data))⟩)]⟩)) :=
  c5_no_resolution
    (fun s => if s = ("A").data
      then some [((("x").data), PyVal.str (("$\x7btool_result.0\x7d").data))] else none)
    ⟨[((("echo").data), ⟨("d").data, 30,
      fun args => ToolBehavior.ok (dictGetStr args (("x").data) (("?").data))⟩)]⟩
    [⟨("c1").data, ("function").data, ("echo").data, ("A").data⟩]
    (by intro tc hm; simp only [List.mem_singleton] at hm; subst hm; right; simp)

/-- Helper: a decimal rendering is never empty. -/
theorem natRepr_ne_nil (n : Nat) : natRepr n ≠ [] := by
  unfold natRepr
  split
  · simp
  · rename_i h
    cases n with
    | zero => exact absurd rfl h
    | succ m =>
      simp only [natReprAux]
      simp

/-- Helper: the truncation marker is 23 characters plus the rendered
length. -/
theorem markerFor_length (n : Nat) : (markerFor n).length = 23 + (natRepr n).length := by
  unfold markerFor
  rw [List.length_append, List.length_append]
  have h1 : (("\n[... 内容被截断 (").data).length = 13 := rfl
  have h2 : ((" 字符) ...]\n").data).length = 10 := rfl
  rw [h1, h2]
  omega

/-- Helper: the truncation marker is at least 24 characters long. -/
theorem markerFor_ge (n : Nat) : 24 ≤ (markerFor n).length := by
  rw [markerFor_length]
  have h := List.length_pos.mpr (natRepr_ne_nil n)
  omega

/-- Helper: Python `int(x * 0.5)` on a nonnegative integer is halving. -/
theorem pyInt_half_nat (n : Nat) : pyInt ((n : ℚ) * (1 / 2)) = ((n / 2 : Nat) : Int) := by
  unfold pyInt
  rw [if_pos (by positivity)]
  rw [show ((n : ℚ) * (1 / 2)).floor = ⌊(n : ℚ) * (1 / 2)⌋ from by
    rw [Rat.floor_def', Rat.floor_def]]
  rw [show ((n : ℚ) * (1 / 2)) = ((n : ℚ) / (2 : ℚ)) from by ring,
    show ((2 : ℚ)) = ((2 : Nat) : ℚ) from by norm_num,
    Rat.floor_natCast_div_natCast]
  exact (Int.ofNat_tdiv n 2).symm

/-- Helper: an input at or below the effective limit is returned
unchanged. -/
theorem truncate_le (s : List Char) (H : Nat) (hs : s.length ≤ H) :
    truncate_tool_result s none TOOL_RESULT_HEAD_FRAC TOOL_RESULT_TAIL_FRAC H = s := by
  by_cases hnil : s = []
  · simp only [truncate_tool_result, if_pos hnil]
  · simp only [truncate_tool_result, if_neg hnil, min_self]
    rw [if_pos hs]

/-- Helper: the value of default-parameter truncation on an over-limit
input — the marker never fits beside the unshrunk halves, so the adjusted
split applies. -/
theorem truncate_over (result : List Char) (H : Nat)
    (hover : H < result.length)
    (hm : (markerFor result.length).length < H) :
    truncate_tool_result result none TOOL_RESULT_HEAD_FRAC TOOL_RESULT_TAIL_FRAC H =
      result.take ((H - (markerFor result.length).length) / 2) ++
        markerFor result.length ++
        result.drop (result.length - ((H - (markerFor result.length).length) -
          (H - (markerFor result.length).length) / 2)) := by
  have hmge := markerFor_ge result.length
  have hne : result ≠ [] := by
    intro h
    rw [h] at hover
    simp at hover
  have hcond : pyInt ((H : ℚ) * (1 / 2)) + pyInt ((H : ℚ) * (1 / 2)) +
      ((markerFor result.length).length : Int) > (H : Int) := by
    rw [pyInt_half_nat H]
    omega
  simp only [truncate_tool_result, if_neg hne, min_self]
  rw [if_neg (by omega : ¬ result.length ≤ H)]
  simp only [TOOL_RESULT_HEAD_FRAC, TOOL_RESULT_TAIL_FRAC]
  rw [if_pos hcond, if_pos hcond]
  have hav : ((H : Int) - ((markerFor result.length).length : Int)) =
      ((H - (markerFor result.length).length : Nat) : Int) := by omega
  rw [hav]
  rw [show (((H - (markerFor result.length).length : Nat) : Int) : ℚ) =
      ((H - (markerFor result.length).length : Nat) : ℚ) from by push_cast; ring]
  rw [pyInt_half_nat]
  have htl : ((H - (markerFor result.length).length : Nat) : Int) -
      (((H - (markerFor result.length).length) / 2 : Nat) : Int) =
      (((H - (markerFor result.length).length) -
        (H - (markerFor result.length).length) / 2 : Nat) : Int) := by omega
  rw [htl]
  rw [if_pos (by omega : (0 : Int) <
    (((H - (markerFor result.length).length) -
      (H - (markerFor result.length).length) / 2 : Nat) : Int))]
  simp only [pyHeadSlice, pyTailTake]
  rw [if_pos (by omega : (0 : Int) ≤
    (((H - (markerFor result.length).length) / 2 : Nat) : Int))]
  rw [Int.toNat_natCast, Int.toNat_natCast]

/-- C8 as amended: an input at or below the effective limit is returned
unchanged (hence truncation is idempotent there); an input over the limit
(with the source's default parameters: no context window and 0.5/0.5
ratios, for which the marker never fits beside the unshrunk halves) yields
`text[:head_len] + marker + text[-tail_len:]` with the *adjusted* split
`head_len = floor((limit − marker_len) × head_ratio)` and
`tail_len = (limit − marker_len) − head_len` — not the claim's
`floor(limit × head_ratio)` — and the output length is exactly the
limit (in particular `≤ hard_limit`). -/
theorem c8_truncation (result s : List Char) (H : Nat)
    (hover : H < result.length)
    (hm : (markerFor result.length).length < H)
    (hs : s.length ≤ H) :
    truncate_tool_result s none TOOL_RESULT_HEAD_FRAC TOOL_RESULT_TAIL_FRAC H = s ∧
    truncate_tool_result result none TOOL_RESULT_HEAD_FRAC TOOL_RESULT_TAIL_FRAC H =
      result.take ((H - (markerFor result.length).length) / 2) ++
        markerFor result.length ++
        result.drop (result.length - ((H - (markerFor result.length).length) -
          (H - (markerFor result.length).length) / 2)) ∧
    (truncate_tool_result result none TOOL_RESULT_HEAD_FRAC TOOL_RESULT_TAIL_FRAC H).length
      = H := by
  refine ⟨truncate_le s H hs, truncate_over result H hover hm, ?_⟩
  rw [truncate_over result H hover hm]
  have hmge := markerFor_ge result.length
  simp only [List.length_append, List.length_take, List.length_drop]
  omega

/-- C8 counterexample: with `hard_limit = 100` and the default 0.5/0.5
ratios, the claim's `head_len = floor(limit × head_ratio) = 50`, but the
output of truncating a 101-character input does not start with
`text[:50]` — the marker adjustment shrinks the head to 37 characters. -/
theorem c8_counterexample :
    pyInt ((100 : ℚ) * TOOL_RESULT_HEAD_FRAC) = 50 ∧
    startsWithSub
      (truncate_tool_result (List.replicate 101 'a') none TOOL_RESULT_HEAD_FRAC
        TOOL_RESULT_TAIL_FRAC 100)
      ((List.replicate 101 'a').take 50) = false := by
  constructor
  · have h := pyInt_half_nat 100
    simp only [TOOL_RESULT_HEAD_FRAC]
    norm_num at h ⊢
    exact h
  · rw [truncate_over (List.replicate 101 'a') 100 (by decide) (by decide)]
    decide

/-- C8 witness: the amended truncation contract at a concrete 101-character
input with limit 100, plus a short input returned unchanged. -/
theorem c8_truncation_witness :
    truncate_tool_result (List.replicate 5 'b') none TOOL_RESULT_HEAD_FRAC
      TOOL_RESULT_TAIL_FRAC 100 = List.replicate 5 'b' ∧
    truncate_tool_result (List.replicate 101 'a') none TOOL_RESULT_HEAD_FRAC
      TOOL_RESULT_TAIL_FRAC 100 =
      (List.replicate 101 'a').take
          ((100 - (markerFor (List.replicate 101 'a').length).length) / 2) ++
        markerFor (List.replicate 101 'a').length ++
        (List.replicate 101 'a').drop ((List.replicate 101 'a').length -
          ((100 - (markerFor (List.replicate 101 'a').length).length) -
            (100 - (markerFor (List.replicate 101 'a').length).length) / 2)) ∧
    (truncate_tool_result (List.replicate 101 'a') none TOOL_RESULT_HEAD_FRAC
      TOOL_RESULT_TAIL_FRAC 100).length = 100 :=
  c8_truncation (List.replicate 101 'a') (List.replicate 5 'b') 100
    (by decide) (by decide) (by decide)

/-- The literal tool-result placeholder built from a digit string. -/
def plTR (ds : List Char) : List Char := trPre ++ ds ++ [rbr]

/-- Helper: the empty pattern prefixes everything. -/
theorem startsWithSub_nil (l : List Char) : startsWithSub l [] = true := by
  cases l <;> rfl

/-- Helper: a list starts with itself extended. -/
theorem startsWith_self_append (xs ys : List Char) :
    startsWithSub (xs ++ ys) xs = true := by
  induction xs with
  | nil => simp only [List.nil_append, startsWithSub_nil]
  | cons a rest ih => simp [startsWithSub, ih]

/-- Helper: a list starts with itself. -/
theorem startsWith_self (l : List Char) : startsWithSub l l = true := by
  have := startsWith_self_append l []
  rwa [List.append_nil] at this

/-- Helper: a common prefix cancels in a prefix test. -/
theorem startsWith_cancel (xs a b : List Char) :
    startsWithSub (xs ++ a) (xs ++ b) = startsWithSub a b := by
  induction xs with
  | nil => rfl
  | cons c rest ih => simp [startsWithSub, ih]

/-- Helper: a prefix test against a cons determines the head. -/
theorem startsWith_head (l : List Char) (c : Char) (p : List Char)
    (h : startsWithSub l (c :: p) = true) : l.head? = some c := by
  cases l with
  | nil => cases h
  | cons a rest =>
    simp only [startsWithSub, Bool.and_eq_true, decide_eq_true_eq] at h
    rw [h.1]
    rfl

/-- Helper: the digit run of a digit string closed by the brace is the whole
string. -/
theorem takeWhile_digits (ds : List Char) (h : ∀ c ∈ ds, c.isDigit = true) :
    (ds ++ [rbr]).takeWhile (fun c => c.isDigit) = ds := by
  induction ds with
  | nil => rfl
  | cons c rest ih =>
    have hc := h c (by simp)
    simp only [List.cons_append, List.takeWhile_cons, hc, if_true]
    rw [ih fun c2 hm => h c2 (by simp [hm])]

/-- Helper: the regex `\$\{tool_result\.(\d+)\}` matches the literal
placeholder at its start and captures the digit run. -/
theorem matchTRAt_pl (ds : List Char) (hne : ds ≠ [])
    (hdig : ∀ c ∈ ds, c.isDigit = true) :
    matchTRAt (plTR ds) = some (plTR ds, digitsVal ds) := by
  have h1 : startsWithSub (plTR ds) trPre = true := by
    rw [plTR, List.append_assoc]
    exact startsWith_self_append trPre (ds ++ [rbr])
  have h2 : (plTR ds).drop trPre.length = ds ++ [rbr] := by
    rw [plTR, List.append_assoc]
    exact List.drop_left trPre (ds ++ [rbr])
  simp only [matchTRAt, h1, if_true, h2, takeWhile_digits ds hdig]
  rw [if_pos ⟨hne, by rw [List.drop_left ds [rbr]]; rfl⟩]
  simp [plTR, List.append_assoc]

/-- Helper: a successful match at a nonempty scan start is the first
match. -/
theorem scanFirst_of_match {α : Type} (f : List Char → Option α) (l : List Char)
    (r : α) (hne : l ≠ []) (h : f l = some r) : scanFirst f l = some r := by
  cases l with
  | nil => exact absurd rfl hne
  | cons c rest => simp [scanFirst, h]

/-- Helper: the placeholder literal is nonempty. -/
theorem plTR_ne_nil (ds : List Char) : plTR ds ≠ [] := by
  simp [plTR, trPre]

/-- Helper: `re.search` finds the literal placeholder when the value is
exactly the placeholder. -/
theorem findTR_pl (ds : List Char) (hne : ds ≠ [])
    (hdig : ∀ c ∈ ds, c.isDigit = true) :
    findTR (plTR ds) = some (plTR ds, digitsVal ds) :=
  scanFirst_of_match matchTRAt (plTR ds) (plTR ds, digitsVal ds) (plTR_ne_nil ds)
    (matchTRAt_pl ds hne hdig)

/-- Helper: exhausted fuel or an empty scan under `replaceAllGo` is the
identity on the empty list. -/
theorem replaceAllGo_nil (pat repl : List Char) (f : Nat) :
    replaceAllGo pat repl f [] = [] := by
  cases f <;> rfl

/-- Helper: replacing a nonempty pattern within itself yields the
replacement (`"x".replace("x", y) == y`). -/
theorem replaceAll_self (pat repl : List Char) (h : pat ≠ []) :
    replaceAll pat pat repl = repl := by
  unfold replaceAll
  cases pat with
  | nil => exact absurd rfl h
  | cons c rest =>
    simp only [List.length_cons, replaceAllGo]
    rw [if_pos ⟨by simp, startsWith_self (c :: rest)⟩]
    simp only [List.length_cons, Nat.add_sub_cancel, List.drop_length]
    rw [replaceAllGo_nil]
    simp

/-- Helper: a pattern led by a character absent from the haystack does not
occur in it. -/
theorem containsSub_not_head (s pat : List Char) (c : Char)
    (hh : pat.head? = some c) (hn : c ∉ s) : containsSub s pat = false := by
  induction s with
  | nil =>
    cases pat with
    | nil => cases hh
    | cons p pt => rfl
  | cons a rest ih =>
    cases pat with
    | nil => cases hh
    | cons p pt =>
      have hp : p = c := by
        simp only [List.head?] at hh
        injection hh
      subst hp
      have hac : a ≠ p := fun hac => hn (by rw [← hac]; simp)
      have hsw : startsWithSub (a :: rest) (p :: pt) = false := by
        simp [startsWithSub, hac]
      unfold containsSub
      rw [hsw]
      simp only [Bool.false_eq_true, if_false]
      exact ih fun hmem => hn (by simp [hmem])

/-- Helper: a scan whose matcher requires a leading dollar finds nothing in
a dollar-free string. -/
theorem scanFirst_none {α : Type} (f : List Char → Option α)
    (hf : ∀ l r, f l = some r → l.head? = some '$') :
    ∀ s : List Char, '$' ∉ s → scanFirst f s = none := by
  intro s
  induction s with
  | nil => intro _; rfl
  | cons c rest ih =>
    intro h
    cases hfc : f (c :: rest) with
    | some r =>
      have := hf (c :: rest) r hfc
      simp only [List.head?] at this
      injection this with h2
      exact absurd (by rw [h2]; simp) h
    | none =>
      simp only [scanFirst, hfc]
      exact ih fun hm => h (by simp [hm])

/-- Helper: the tool-result matcher only fires on a leading dollar. -/
theorem matchTRAt_head (l : List Char) (r : List Char × Nat)
    (h : matchTRAt l = some r) : l.head? = some '$' := by
  unfold matchTRAt at h
  split at h
  · rename_i hsw
    exact startsWith_head l '$' (("\x7btool_result.").data) hsw
  · cases h

/-- Helper: the key matchers only fire on a leading dollar. -/
theorem matchKeyAt_head (pre : List Char) (hpre : pre.head? = some '$')
    (l : List Char) (r : List Char × List Char)
    (h : matchKeyAt pre l = some r) : l.head? = some '$' := by
  unfold matchKeyAt at h
  split at h
  · rename_i hsw
    cases pre with
    | nil => cases hpre
    | cons p pt =>
      have hp : p = '$' := by
        simp only [List.head?] at hpre
        injection hpre
      subst hp
      exact startsWith_head l '$' pt hsw
  · cases h

/-- Helper: a digit is not a dollar, not an `l`, and not a brace. -/
theorem digit_ne (c : Char) (h : c.isDigit = true) : c ≠ '$' ∧ c ≠ 'l' := by
  constructor
  · intro he
    rw [he] at h
    cases h
  · intro he
    rw [he] at h
    cases h

/-- Helper: the tail of the literal placeholder contains no dollar. -/
theorem plTR_tail_no_dollar (ds : List Char) (hdig : ∀ c ∈ ds, c.isDigit = true) :
    '$' ∉ (("\x7btool_result.").data ++ ds ++ [rbr]) := by
  intro h
  rw [List.append_assoc, List.mem_append] at h
  rcases h with h | h
  · revert h
    decide
  · rw [List.mem_append] at h
    rcases h with h | h
    · exact (digit_ne '$' (hdig '$' h)).1 rfl
    · revert h
      decide

/-- Helper: the `last` placeholder does not occur inside a digit-indexed
placeholder literal. -/
theorem lastP_not_in_pl (ds : List Char) (hne : ds ≠ [])
    (hdig : ∀ c ∈ ds, c.isDigit = true) :
    containsSub (plTR ds) lastP = false := by
  have hsw : startsWithSub (plTR ds) lastP = false := by
    have hl : lastP = trPre ++ ("last\x7d").data := rfl
    rw [plTR, hl, List.append_assoc, startsWith_cancel]
    cases ds with
    | nil => exact absurd rfl hne
    | cons d rest =>
      have hd : d ≠ 'l' := (digit_ne d (hdig d (by simp))).2
      simp [startsWithSub, hd]
  have htail : containsSub (("\x7btool_result.").data ++ ds ++ [rbr]) lastP = false :=
    containsSub_not_head _ lastP '$' rfl (plTR_tail_no_dollar ds hdig)
  have hcons : plTR ds = '$' :: (("\x7btool_result.").data ++ ds ++ [rbr]) := by
    rw [plTR]
    rfl
  rw [hcons] at hsw
  rw [hcons]
  unfold containsSub
  simp only [hsw, Bool.false_eq_true, if_false]
  exact htail

/-- Helper: a key scan whose prefix mismatches the placeholder finds nothing
in a digit-indexed placeholder literal. -/
theorem find_pl_none (pre ds : List Char)
    (hdig : ∀ c ∈ ds, c.isDigit = true)
    (hpre : pre.head? = some '$')
    (hsw : startsWithSub (plTR ds) pre = false) :
    scanFirst (matchKeyAt pre) (plTR ds) = none := by
  have hmt : matchKeyAt pre (plTR ds) = none := by
    unfold matchKeyAt
    simp [hsw]
  have hcons : plTR ds = '$' :: (("\x7btool_result.").data ++ ds ++ [rbr]) := by
    rw [plTR]
    rfl
  rw [hcons] at hmt
  rw [hcons]
  simp only [scanFirst, hmt]
  exact scanFirst_none (matchKeyAt pre) (matchKeyAt_head pre hpre) _
    (plTR_tail_no_dollar ds hdig)

/-- Helper: the memory pattern does not match a digit-indexed placeholder. -/
theorem findMem_pl (ds : List Char) (hdig : ∀ c ∈ ds, c.isDigit = true) :
    findMem (plTR ds) = none := by
  refine find_pl_none memPre ds hdig rfl ?_
  have h1 : plTR ds = ('$' :: '\x7b' :: 't' :: (("ool_result.").data ++ ds ++ [rbr])) := by
    rw [plTR]
    rfl
  have h2 : memPre = '$' :: '\x7b' :: 'm' :: ("emory.").data := rfl
  rw [h1, h2]
  simp [startsWithSub]

/-- Helper: the natural-language pattern does not match a digit-indexed
placeholder. -/
theorem findNat_pl (ds : List Char) (hdig : ∀ c ∈ ds, c.isDigit = true) :
    findNat (plTR ds) = none := by
  refine find_pl_none natPre ds hdig rfl ?_
  have h1 : plTR ds = ('$' :: '\x7b' :: 't' :: (("ool_result.").data ++ ds ++ [rbr])) := by
    rw [plTR]
    rfl
  have h2 : natPre = '$' :: '\x7b' :: 'n' :: ("atural.").data := rfl
  rw [h1, h2]
  simp [startsWithSub]

/-- Helper: indexing a nonempty list at `length - 1` is its last element. -/
theorem getD_last {α : Type} (l : List α) (h : l ≠ []) :
    ∀ d : α, l.getD (l.length - 1) d = l.getLastD d := by
  induction l with
  | nil => exact absurd rfl h
  | cons x rest ih =>
    intro d
    cases rest with
    | nil => rfl
    | cons y t =>
      have hlen : (x :: y :: t).length - 1 = ((y :: t).length - 1) + 1 := by simp
      rw [List.getLastD_cons, hlen, List.getD_cons_succ, ih (by simp) d,
        List.getLastD_cons, List.getLastD_cons]

/-- Helper: step 1 substitutes the last entry's output for an in-range
last-index placeholder. -/
theorem resolveStep1_pl_last (ds : List Char) (results : List PToolResult)
    (hne : results ≠ []) (hds : ds ≠ []) (hdig : ∀ c ∈ ds, c.isDigit = true)
    (hval : digitsVal ds = results.length - 1) :
    resolveStep1 (plTR ds) results = (results.getLastD ⟨[], [], [], false⟩).output := by
  have hlen : 0 < results.length := List.length_pos.mpr hne
  unfold resolveStep1
  rw [findTR_pl ds hds hdig]
  show (if digitsVal ds < results.length then
      replaceAll (plTR ds) (plTR ds) ((results.getD (digitsVal ds) ⟨[], [], [], false⟩).output)
    else plTR ds) = _
  rw [if_pos (by omega), replaceAll_self _ _ (plTR_ne_nil ds), hval,
    getD_last results hne]

/-- Helper: step 1 leaves an out-of-range placeholder untouched. -/
theorem resolveStep1_pl_out (ds : List Char) (results : List PToolResult)
    (hds : ds ≠ []) (hdig : ∀ c ∈ ds, c.isDigit = true)
    (hval : results.length ≤ digitsVal ds) :
    resolveStep1 (plTR ds) results = plTR ds := by
  unfold resolveStep1
  rw [findTR_pl ds hds hdig]
  show (if digitsVal ds < results.length then
      replaceAll (plTR ds) (plTR ds) ((results.getD (digitsVal ds) ⟨[], [], [], false⟩).output)
    else plTR ds) = _
  rw [if_neg (by omega)]

/-- Helper: step 1 does not fire on the `last` placeholder. -/
theorem resolveStep1_lastP (results : List PToolResult) :
    resolveStep1 lastP results = lastP := by
  unfold resolveStep1
  rw [show findTR lastP = none from rfl]

/-- Helper: step 2 substitutes the last entry's output for the `last`
placeholder. -/
theorem resolveStep2_lastP (results : List PToolResult) (hne : results ≠ []) :
    resolveStep2 lastP results = (results.getLastD ⟨[], [], [], false⟩).output := by
  unfold resolveStep2
  rw [if_pos ⟨rfl, hne⟩]
  rw [replaceAll_self _ _ (by decide)]

/-- Helper: step 2 is the identity on a value free of the `last`
placeholder. -/
theorem resolveStep2_skip (v : List Char) (results : List PToolResult)
    (h : containsSub v lastP = false) : resolveStep2 v results = v := by
  unfold resolveStep2
  rw [if_neg (by simp [h])]

/-- Helper: step 3 leaves a digit-indexed placeholder untouched. -/
theorem resolveStep3_pl (ds : List Char) (mem : Option MemStore)
    (hdig : ∀ c ∈ ds, c.isDigit = true) :
    resolveStep3 (plTR ds) mem = plTR ds := by
  cases mem with
  | none => rfl
  | some store =>
    unfold resolveStep3
    rw [findMem_pl ds hdig]

/-- Helper: step 4 leaves a digit-indexed placeholder untouched. -/
theorem resolveStep4_pl (ds : List Char) (results : List PToolResult)
    (hdig : ∀ c ∈ ds, c.isDigit = true) :
    resolveStep4 (plTR ds) results = plTR ds := by
  unfold resolveStep4
  rw [findNat_pl ds hdig]

/-- C7 as amended: with a nonempty result history of length `N`, resolving
the literal `${tool_result.<N-1>}` agrees with resolving
`${tool_result.last}` provided the last entry's output does not itself
contain the literal text `${tool_result.last}` (otherwise the numeric form
is re-substituted by the later `last` step and the two can differ — see the
counterexample); and a placeholder whose decimal index is `≥ N` resolves to
the literal placeholder text unchanged, under any memory store. -/
theorem c7_last_and_range (k : List Char) (results : List PToolResult)
    (mem : Option MemStore) (ds ds2 : List Char)
    (hne : results ≠ [])
    (hds : ds ≠ []) (hdig : ∀ c ∈ ds, c.isDigit = true)
    (hval : digitsVal ds = results.length - 1)
    (hlast : containsSub (results.getLastD ⟨[], [], [], false⟩).output lastP = false)
    (hds2 : ds2 ≠ []) (hdig2 : ∀ c ∈ ds2, c.isDigit = true)
    (hval2 : results.length ≤ digitsVal ds2) :
    resolve_placeholders [(k, PyVal.str (plTR ds))] results mem =
      resolve_placeholders [(k, PyVal.str lastP)] results mem ∧
    resolve_placeholders [(k, PyVal.str (plTR ds2))] results mem =
      [(k, PyVal.str (plTR ds2))] := by
  have hA : resolveValue (plTR ds) results mem =
      resolveStep4 (resolveStep3 ((results.getLastD ⟨[], [], [], false⟩).output) mem)
        results := by
    unfold resolveValue
    rw [resolveStep1_pl_last ds results hne hds hdig hval, resolveStep2_skip _ _ hlast]
  have hB : resolveValue lastP results mem =
      resolveStep4 (resolveStep3 ((results.getLastD ⟨[], [], [], false⟩).output) mem)
        results := by
    unfold resolveValue
    rw [resolveStep1_lastP results, resolveStep2_lastP results hne]
  have hC : resolveValue (plTR ds2) results mem = plTR ds2 := by
    unfold resolveValue
    rw [resolveStep1_pl_out ds2 results hds2 hdig2 hval2,
      resolveStep2_skip _ _ (lastP_not_in_pl ds2 hds2 hdig2),
      resolveStep3_pl ds2 mem hdig2, resolveStep4_pl ds2 results hdig2]
  constructor
  · show [(k, PyVal.str (resolveValue (plTR ds) results mem))] =
      [(k, PyVal.str (resolveValue lastP results mem))]
    rw [hA, hB]
  · show [(k, PyVal.str (resolveValue (plTR ds2) results mem))] =
      [(k, PyVal.str (plTR ds2))]
    rw [hC]

/-- C7 counterexample: when the last output itself contains the literal
text `${tool_result.last}`, resolving `${tool_result.0}` (with one entry,
so `N − 1 = 0`) differs from resolving `${tool_result.last}`: the numeric
substitution happens first and the `last` step then rewrites inside the
substituted output. -/
theorem c7_counterexample :
    resolve_placeholders [((("p").data), PyVal.str (("$\x7btool_result.0\x7d").data))]
      [⟨("t1").data, ("g").data, ("X$\x7btool_result.last\x7d").data, true⟩] none =
      [((("p").data), PyVal.str (("XX$\x7btool_result.last\x7d").data))] ∧
    resolve_placeholders [((("p").data), PyVal.str (("$\x7btool_result.last\x7d").data))]
      [⟨("t1").data, ("g").data, ("X$\x7btool_result.last\x7d").data, true⟩] none =
      [((("p").data), PyVal.str (("X$\x7btool_result.last\x7d").data))] ∧
    (("XX$\x7btool_result.last\x7d").data : List Char) ≠
      ("X$\x7btool_result.last\x7d").data := by
  refine ⟨by decide, by decide, by decide⟩

/-- C7 witness: the amended statement with one recorded result whose output
is placeholder-free, index `0 = N − 1` in range and index `7` out of
range. -/
theorem c7_last_and_range_witness :
    resolve_placeholders [((("p").data), PyVal.str (plTR [('0' : Char)]))]
      [⟨("t1").data, ("g").data, ("HELLO").data, true⟩] none =
      resolve_placeholders [((("p").data), PyVal.str lastP)]
        [⟨("t1").data, ("g").data, ("HELLO").data, true⟩] none ∧
    resolve_placeholders [((("p").data), PyVal.str (plTR [('7' : Char)]))]
      [⟨("t1").data, ("g").data, ("HELLO").data, true⟩] none =
      [((("p").data), PyVal.str (plTR [('7' : Char)]))] :=
  c7_last_and_range (("p").data)
    [⟨("t1").data, ("g").data, ("HELLO").data, true⟩] none [('0' : Char)] [('7' : Char)]
    (by decide) (by decide) (by decide) (by decide) (by decide) (by decide)
    (by decide) (by decide)
